import Mathlib

/-!
The bootstrap orchestrator `CreateVM` of vsh (`cmd/main.go`).

A shallow embedding of `CreateVM` and of the flags that `main` declares.  The
collaborators that live outside `cmd/main.go` (`system.Rlimit`, `os.MkdirTemp`,
`system.CopyBootstrapInToRootFS`, `VMConfig.WriteToJsonFile`, `filepath.Join`,
`define.VMConfig`, `filesystem.CmdLineMountToMounts` and the three subsystem
entry points) are the fields of a `World`: every outcome they can have is a
value of that record, and `CreateVM` is a function of the world, of its context,
of the parsed command line and of a schedule of the goroutines.  The error
group that runs the three subsystems is a small state machine, `Group`, stepped
by the schedule.  Calls to `logrus` are not modelled.
-/

namespace Vsh

/-! ## Data model -/

/-- A non-nil Go `error` value, carried by its message; a Go result of type
`error` is an `Option GoError`, with `none` for `nil`. -/
structure GoError where
  msg : String
  deriving DecidableEq, Repr

/-- The call `fmt.Errorf(pre + "%v", err)`: a new error whose message is the
literal text followed by `err.Error()`. -/
def Errorf (pre : String) (err : GoError) : GoError :=
  ⟨pre ++ err.msg⟩

/-- The record `vmconfig.VMConfig` with the fields `CreateVM` sets.  The element
type `M` of `Mounts` is declared in `pkg/filesystem` and is a parameter. -/
structure VMConfig (M : Type) where
  MemoryInMB : Int
  Cpus : Int
  RootFS : String
  DataDisk : List String
  Mounts : List M
  GVproxyEndpoint : String
  NetworkStackBackend : String
  deriving DecidableEq, Repr

/-- The record `vmconfig.Cmdline`. -/
structure Cmdline where
  Workspace : String
  TargetBin : String
  TargetBinArgs : List String
  Env : List String
  deriving DecidableEq, Repr

/-- The parsed command line as `CreateVM` receives it: the value of each flag
declared in `main` (`none` when an optional flag was not given) and the
trailing positional arguments. -/
structure Command where
  rootfs : String
  cpus : Option Int
  memory : Option Int
  envs : List String
  dataDisk : List String
  mount : List String
  args : List String
  deriving DecidableEq, Repr

/-- Range of a Go `int32`. -/
def isInt32 (n : Int) : Prop := -2147483648 ≤ n ∧ n ≤ 2147483647

/-- Range of a Go `int8`. -/
def isInt8 (n : Int) : Prop := -128 ≤ n ∧ n ≤ 127

instance (n : Int) : Decidable (isInt32 n) := by unfold isInt32; infer_instance

instance (n : Int) : Decidable (isInt8 n) := by unfold isInt8; infer_instance

/-- A command line the flag parser can produce: `--memory` is an `int32` and
`--cpus` an `int8`. -/
def Command.WellFormed (c : Command) : Prop :=
  (∀ m, c.memory = some m → isInt32 m) ∧ (∀ n, c.cpus = some n → isInt8 n)

/-- The lookup `command.Int32(name)`: the flag `memory` has `Value: 512`; a name
that is not an `Int32Flag` yields the zero value. -/
def Command.Int32 (c : Command) (name : String) : Int :=
  if name = "memory" then c.memory.getD 512 else 0

/-- The lookup `command.Int8(name)`: the flag `cpus` has `Value: 1`. -/
def Command.Int8 (c : Command) (name : String) : Int :=
  if name = "cpus" then c.cpus.getD 1 else 0

/-- The lookup `command.String(name)`; named `StringOf` here, where `String` is
the type of strings. -/
def Command.StringOf (c : Command) (name : String) : String :=
  if name = "rootfs" then c.rootfs else ""

/-- The lookup `command.StringSlice(name)` for the three slice flags of `main`. -/
def Command.StringSlice (c : Command) (name : String) : List String :=
  if name = "envs" then c.envs
  else if name = "data-disk" then c.dataDisk
  else if name = "mount" then c.mount
  else []

/-- The positional arguments, `command.Args()`. -/
def Command.Args (c : Command) : List String := c.args

/-- The method `Args.Get(n)` of the command-line library: the n-th argument, or
the empty string when there are not that many. -/
def Args.Get (a : List String) (n : Nat) : String :=
  if a.length > n then a.getD n "" else ""

/-- The method `Args.First()`, which is `Get(0)`. -/
def Args.First (a : List String) : String := Args.Get a 0

/-- The method `Args.Tail()`: everything after the first argument when there
are at least two, otherwise the empty slice. -/
def Args.Tail (a : List String) : List String :=
  if a.length ≥ 2 then a.drop 1 else []

/-! ## Collaborators -/

/-- A `context.Context`: the background context that `main` passes to
`app.Run`, or a context derived from a parent together with a cancel function
of its own, as `errgroup.WithContext` derives one.  Cancellation of a parent is
not modelled: `main` passes `context.Background()`, which is never cancelled. -/
inductive Ctx where
  | background
  | withCancel (parent : Ctx)
  deriving DecidableEq, Repr

/-- Every outcome of the code outside `cmd/main.go` that `CreateVM` calls. -/
structure World (M : Type) where
  Rlimit : Option GoError
  MkdirTemp : String → String → Except GoError String
  CopyBootstrapInToRootFS : String → Option GoError
  WriteToJsonFile : VMConfig M → String → Option GoError
  Join : String → String → String
  DefineVMConfig : String
  CmdLineMountToMounts : List String → List M
  StartNetworking : Ctx → VMConfig M → Option GoError
  IgnServer : Ctx → VMConfig M → Option GoError
  StartVM : Ctx → VMConfig M → Cmdline → Option GoError

/-- The three subsystem tasks. -/
inductive Task where
  | network
  | ignServer
  | startVM
  deriving DecidableEq, Repr

/-- A subsystem entry point together with the arguments it is called with. -/
inductive Call (M : Type) where
  | StartNetworking (ctx : Ctx) (vmc : VMConfig M)
  | IgnServer (ctx : Ctx) (vmc : VMConfig M)
  | StartVM (ctx : Ctx) (vmc : VMConfig M) (cmdline : Cmdline)
  deriving DecidableEq, Repr

/-- The task a call belongs to. -/
def Call.task {M : Type} : Call M → Task
  | .StartNetworking _ _ => .network
  | .IgnServer _ _ => .ignServer
  | .StartVM _ _ _ => .startVM

/-- The context a call receives. -/
def Call.ctx {M : Type} : Call M → Ctx
  | .StartNetworking ctx _ => ctx
  | .IgnServer ctx _ => ctx
  | .StartVM ctx _ _ => ctx

/-- The configuration a call receives. -/
def Call.vmc {M : Type} : Call M → VMConfig M
  | .StartNetworking _ v => v
  | .IgnServer _ v => v
  | .StartVM _ v _ => v

/-- What a call returns in the given world. -/
def World.exec {M : Type} (w : World M) : Call M → Option GoError
  | .StartNetworking ctx vmc => w.StartNetworking ctx vmc
  | .IgnServer ctx vmc => w.IgnServer ctx vmc
  | .StartVM ctx vmc cmdline => w.StartVM ctx vmc cmdline

/-- What `CreateVM` does that is visible from outside, in the order it happens. -/
inductive Event (M : Type) where
  | Rlimit (r : Option GoError)
  | MkdirTemp (dir pattern : String) (r : Except GoError String)
  | CopyBootstrapInToRootFS (rootfs : String) (r : Option GoError)
  | WriteToJsonFile (vmc : VMConfig M) (file : String) (r : Option GoError)
  | Go (c : Call M)
  | Return (c : Call M) (r : Option GoError)
  | Cancel (cause : Option GoError)
  | WaitReturn (r : Option GoError)

/-! ## The error group (`golang.org/x/sync/errgroup`) -/

/-- Modelled from the spec: the package `golang.org/x/sync/errgroup` is not part
of `cmd/main.go`; section 4.5 describes its group as one cancellation scope
whose first failing task cancels the scope and whose waiter returns that first
error once every task has terminated.  The state of an `errgroup.Group`: the
stored error `err`, whether `errOnce` has fired, whether the context derived by
`WithContext` has been cancelled by the group, and the goroutines started by
`Go` that have not returned yet (the wait group). -/
structure Group (M : Type) where
  err : Option GoError
  errOnce : Bool
  cancelled : Bool
  running : List (Call M)

/-- Modelled from the spec: `errgroup.WithContext(ctx)`, not part of
`cmd/main.go`.  It returns a fresh group (no error stored, nothing cancelled, no
task running) and the context derived from `ctx` that the group cancels. -/
def Group.WithContext {M : Type} (ctx : Ctx) : Group M × Ctx :=
  ({ err := none, errOnce := false, cancelled := false, running := [] }, Ctx.withCancel ctx)

/-- Modelled from the spec: the method `g.Go(f)`, not part of `cmd/main.go`; it
always starts the task, so one more goroutine runs. -/
def Group.Go {M : Type} (g : Group M) (c : Call M) : Group M :=
  { g with running := g.running ++ [c] }

/-- Modelled from the spec: the body of the goroutine started by `g.Go`, not
part of `cmd/main.go`, once its function has returned `r`.  The first task to
return a non-nil error has it stored and cancels the shared context; a later
error is dropped; in every case the goroutine leaves the wait group. -/
def Group.finish {M : Type} (g : Group M) (c : Call M) (r : Option GoError) :
    Group M × List (Event M) :=
  let g1 := { g with running := g.running.eraseP (fun x => x.task == c.task) }
  match r with
  | none => (g1, [Event.Return c none])
  | some e =>
    if g.errOnce then (g1, [Event.Return c (some e)])
    else ({ g1 with err := some e, errOnce := true, cancelled := true },
          [Event.Return c (some e), Event.Cancel (some e)])

/-- Modelled from the spec: the method `g.Wait()`, not part of `cmd/main.go`.  It
is blocked (`none`) while a goroutine of the group runs; once all have
terminated it cancels the context and returns the stored error. -/
def Group.Wait {M : Type} (g : Group M) : Option (Group M × Option GoError) :=
  if g.running.isEmpty then some ({ g with cancelled := true }, g.err) else none

/-! ## Execution after `errgroup.WithContext` -/

/-- One scheduling decision: the goroutine that runs `CreateVM` executes its next
statement, or the goroutine of a task returns from its entry point. -/
inductive Choice where
  | main
  | ret (t : Task)
  deriving DecidableEq, Repr

/-- The state of `CreateVM` from line 115 on: the `g.Go` statements still to be
executed, the group, what has happened so far, and the value returned by
`CreateVM` once `g.Wait()` has returned. -/
structure Sup (M : Type) where
  todo : List (Call M)
  g : Group M
  trace : List (Event M)
  result : Option (Option GoError)

/-- One step under a scheduling decision.  A decision that is not enabled (a
blocked `Wait`, a task that is not running, `CreateVM` already returned) leaves
the state unchanged. -/
def step {M : Type} (w : World M) (s : Sup M) : Choice → Sup M
  | .main =>
    match s.result with
    | some _ => s
    | none =>
      match s.todo with
      | c :: rest => { s with todo := rest, g := s.g.Go c, trace := s.trace ++ [Event.Go c] }
      | [] =>
        match s.g.Wait with
        | none => s
        | some (g, r) =>
          { s with g := g, trace := s.trace ++ [Event.Cancel r, Event.WaitReturn r],
                   result := some r }
  | .ret t =>
    match s.g.running.find? (fun c => c.task == t) with
    | none => s
    | some c =>
      let (g, evs) := s.g.finish c (w.exec c)
      { s with g := g, trace := s.trace ++ evs }

/-- Lines 118 to 130: the `g.Go` statements for the given calls and `g.Wait()`
on the group `g`, run under a schedule. -/
def supervise {M : Type} (w : World M) (g : Group M) (calls : List (Call M))
    (sched : List Choice) : Sup M :=
  sched.foldl (step w) { todo := calls, g := g, trace := [], result := none }

/-! ## `CreateVM` -/

/-- The outcome of a run: the events, the error value `CreateVM` returned
(`none` while it has not returned under the schedule given), which contexts are
cancelled at the end of the schedule, and the values of the local variables
`vmc` and `cmdline` at that point (`none` when the statement that declares the
variable was not reached). -/
structure Run (M : Type) where
  trace : List (Event M)
  result : Option (Option GoError)
  cancelled : Ctx → Bool
  vmc : Option (VMConfig M)
  cmdline : Option Cmdline

/-- The control endpoint, line 88. -/
def GVproxyEndpoint (tmpdir : String) : String :=
  "unix://" ++ tmpdir ++ "/gvproxy-control.sock"

/-- The data endpoint, line 89. -/
def NetworkStackBackend (tmpdir : String) : String :=
  "unixgram://" ++ tmpdir ++ "/vfkit-network-backend.sock"

/-- The boot command of lines 91 to 96. -/
def mkCmdline (command : Command) : Cmdline :=
  { Workspace := "/"
    TargetBin := "/bootstrap-arm64"
    TargetBinArgs := [Args.First command.Args] ++ Args.Tail command.Args
    Env := command.StringSlice "envs" }

/-- The configuration of lines 75 to 81, before the endpoints are set. -/
def mkVMConfig {M : Type} (w : World M) (command : Command) : VMConfig M :=
  { MemoryInMB := command.Int32 "memory"
    Cpus := command.Int8 "cpus"
    RootFS := command.StringOf "rootfs"
    DataDisk := command.StringSlice "data-disk"
    Mounts := w.CmdLineMountToMounts (command.StringSlice "mount")
    GVproxyEndpoint := ""
    NetworkStackBackend := "" }

/-- The configuration after lines 88 and 89 have set the two endpoints. -/
def finalVMConfig {M : Type} (w : World M) (command : Command) (tmpdir : String) : VMConfig M :=
  { mkVMConfig w command with
    GVproxyEndpoint := GVproxyEndpoint tmpdir
    NetworkStackBackend := NetworkStackBackend tmpdir }

/-- The three calls of lines 118 to 128, in the order of the `g.Go` statements. -/
def subsystemCalls {M : Type} (ctx : Ctx) (vmc : VMConfig M) (cmdline : Cmdline) :
    List (Call M) :=
  [Call.StartNetworking ctx vmc, Call.IgnServer ctx vmc, Call.StartVM ctx vmc cmdline]

/-- The function `CreateVM`.  From line 115 on the name `ctx` stands for the
context returned by `errgroup.WithContext`, and it is that context the three
entry points receive. -/
def CreateVM {M : Type} (w : World M) (ctx : Ctx) (command : Command) (sched : List Choice) :
    Run M :=
  match w.Rlimit with
  | some err =>
    { trace := [Event.Rlimit (some err)], result := some (some err)
      cancelled := fun _ => false, vmc := none, cmdline := none }
  | none =>
    match w.MkdirTemp "" "gvproxy" with
    | .error err =>
      { trace := [Event.Rlimit none, Event.MkdirTemp "" "gvproxy" (.error err)]
        result := some (some (Errorf "failed to create temp dir: " err))
        cancelled := fun _ => false
        vmc := some (mkVMConfig w command)
        cmdline := none }
    | .ok tmpdir =>
      let vmc : VMConfig M := finalVMConfig w command tmpdir
      let cmdline := mkCmdline command
      match w.CopyBootstrapInToRootFS vmc.RootFS with
      | some err =>
        { trace := [Event.Rlimit none, Event.MkdirTemp "" "gvproxy" (.ok tmpdir),
                    Event.CopyBootstrapInToRootFS vmc.RootFS (some err)]
          result := some (some (Errorf "failed to copy dhclient4 to rootfs: " err))
          cancelled := fun _ => false
          vmc := some vmc
          cmdline := some cmdline }
      | none =>
        let file := w.Join vmc.RootFS w.DefineVMConfig
        match w.WriteToJsonFile vmc file with
        | some err =>
          { trace := [Event.Rlimit none, Event.MkdirTemp "" "gvproxy" (.ok tmpdir),
                      Event.CopyBootstrapInToRootFS vmc.RootFS none,
                      Event.WriteToJsonFile vmc file (some err)]
            result := some (some (Errorf "failed to write vmconfig to json file: " err))
            cancelled := fun _ => false
            vmc := some vmc
            cmdline := some cmdline }
        | none =>
          let gc : Group M × Ctx := Group.WithContext ctx
          let s := supervise w gc.1 (subsystemCalls gc.2 vmc cmdline) sched
          { trace := [Event.Rlimit none, Event.MkdirTemp "" "gvproxy" (.ok tmpdir),
                      Event.CopyBootstrapInToRootFS vmc.RootFS none,
                      Event.WriteToJsonFile vmc file none] ++ s.trace
            result := s.result
            cancelled := fun x => decide (x = gc.2) && s.g.cancelled
            vmc := some vmc
            cmdline := some cmdline }

/-! ## Concrete worlds and inputs -/

/-- A world in which every collaborator succeeds; the workspace is `/tmp/gvproxy1`. -/
def okWorld : World String :=
  { Rlimit := none
    MkdirTemp := fun _ _ => .ok "/tmp/gvproxy1"
    CopyBootstrapInToRootFS := fun _ => none
    WriteToJsonFile := fun _ _ => none
    Join := fun a b => if a = "" then b else a ++ "/" ++ b
    DefineVMConfig := "vmconfig.json"
    CmdLineMountToMounts := fun l => l
    StartNetworking := fun _ _ => none
    IgnServer := fun _ _ => none
    StartVM := fun _ _ _ => none }

/-- The world `okWorld` except that raising the limit is refused. -/
def rlimitFails : World String :=
  { okWorld with Rlimit := some ⟨"operation not permitted"⟩ }

/-- The world `okWorld` except that the temporary directory cannot be made. -/
def mkdirFails : World String :=
  { okWorld with MkdirTemp := fun _ _ => .error ⟨"no space left on device"⟩ }

/-- The world `okWorld` except that the bootstrap binary cannot be copied. -/
def copyFails : World String :=
  { okWorld with CopyBootstrapInToRootFS := fun _ => some ⟨"no such file or directory"⟩ }

/-- The world `okWorld` except that the configuration cannot be written. -/
def writeFails : World String :=
  { okWorld with WriteToJsonFile := fun _ _ => some ⟨"read-only file system"⟩ }

/-- The schedule in which the three tasks are started, return in start order,
and `Wait` returns. -/
def seqSched : List Choice :=
  [.main, .main, .main, .ret .network, .ret .ignServer, .ret .startVM, .main]

/-- The command line `--rootfs /r --memory 256 --cpus 2 sh -c "echo hi"`. -/
def shCommand : Command :=
  { rootfs := "/r", cpus := some 2, memory := some 256, envs := [], dataDisk := [],
    mount := [], args := ["sh", "-c", "echo hi"] }

/-- The four steps before `errgroup.WithContext` all succeed, with `d` the
directory made by `os.MkdirTemp`. -/
def PreOK {M : Type} (w : World M) (command : Command) (d : String) : Prop :=
  w.Rlimit = none ∧ w.MkdirTemp "" "gvproxy" = .ok d ∧
  w.CopyBootstrapInToRootFS (finalVMConfig w command d).RootFS = none ∧
  w.WriteToJsonFile (finalVMConfig w command d)
    (w.Join (finalVMConfig w command d).RootFS w.DefineVMConfig) = none

/-- The events of the four steps before `errgroup.WithContext` when all succeed. -/
def handoffTrace {M : Type} (w : World M) (command : Command) (d : String) : List (Event M) :=
  [Event.Rlimit none, Event.MkdirTemp "" "gvproxy" (.ok d),
   Event.CopyBootstrapInToRootFS (finalVMConfig w command d).RootFS none,
   Event.WriteToJsonFile (finalVMConfig w command d)
     (w.Join (finalVMConfig w command d).RootFS w.DefineVMConfig) none]

/-- The configurations and paths that a trace passes to `WriteToJsonFile`. -/
def writtenDocs {M : Type} (tr : List (Event M)) : List (VMConfig M × String) :=
  tr.filterMap fun ev =>
    match ev with
    | .WriteToJsonFile v f _ => some (v, f)
    | _ => none

/-- The command line `shCommand` with `--rootfs ""`. -/
def emptyRootfs : Command := { shCommand with rootfs := "" }

/-- The command line `shCommand` with `--memory 0 --cpus 0`. -/
def zeroCommand : Command := { shCommand with cpus := some 0, memory := some 0 }

/-- The command line `shCommand` with the guest command `ls`. -/
def lsCommand : Command := { shCommand with args := ["ls"] }

/-- Two command lines that agree on every flag except `--envs` and on nothing of
the positional arguments: they differ at most in the guest command. -/
def Command.sameButGuestCommand (c1 c2 : Command) : Prop :=
  { c1 with args := [], envs := [] } = { c2 with args := [], envs := [] }

instance (c1 c2 : Command) : Decidable (Command.sameButGuestCommand c1 c2) := by
  unfold Command.sameButGuestCommand; infer_instance

/-- The world `okWorld` except that the network stack returns an error. -/
def netFails : World String :=
  { okWorld with StartNetworking := fun _ _ => some ⟨"network stack failed"⟩ }

/-- The world `okWorld` except that the configuration server returns an error. -/
def ignFails : World String :=
  { okWorld with IgnServer := fun _ _ => some ⟨"config server failed"⟩ }

/-- The world `okWorld` except that the VM runtime returns an error. -/
def vmFails : World String :=
  { okWorld with StartVM := fun _ _ _ => some ⟨"vm runtime failed"⟩ }

/-- The world `okWorld` except that the network stack and the VM runtime both
return an error. -/
def twoFail : World String :=
  { okWorld with StartNetworking := fun _ _ => some ⟨"network stack failed"⟩
                 StartVM := fun _ _ _ => some ⟨"vm runtime failed"⟩ }

/-- The schedule in which the three tasks are started and return in the reverse
of their start order, and `Wait` returns. -/
def revSched : List Choice :=
  [.main, .main, .main, .ret .startVM, .ret .ignServer, .ret .network, .main]

/-- What `CreateVM` passes to `WriteToJsonFile`, read off the world: nothing when
an earlier step fails, otherwise the configuration for the workspace and the
joined path. -/
def handoffDocs {M : Type} (w : World M) (rootfs : String) (vmcOf : String → VMConfig M) :
    List (VMConfig M × String) :=
  match w.Rlimit with
  | some _ => []
  | none =>
    match w.MkdirTemp "" "gvproxy" with
    | .error _ => []
    | .ok d =>
      match w.CopyBootstrapInToRootFS rootfs with
      | some _ => []
      | none => [(vmcOf d, w.Join rootfs w.DefineVMConfig)]

/-- The schedule that starts the three tasks and lets none return. -/
def startSched : List Choice := [.main, .main, .main]

/-- The command line `--rootfs /r sh`, with neither `--memory` nor `--cpus`. -/
def noFlags : Command :=
  { rootfs := "/r", cpus := none, memory := none, envs := [], dataDisk := [], mount := [],
    args := ["sh"] }

/-- The world `okWorld` except that `os.MkdirTemp` makes `/tmp/gvproxy2`. -/
def okWorld2 : World String :=
  { okWorld with MkdirTemp := fun _ _ => .ok "/tmp/gvproxy2" }

/-! ## Reading a trace -/

/-- The call started by an event, if the event is a `g.Go`. -/
def Event.goCall? {M : Type} : Event M → Option (Call M)
  | .Go c => some c
  | _ => none

/-- The call that returned at an event, if the event is a return. -/
def Event.retCall? {M : Type} : Event M → Option (Call M)
  | .Return c _ => some c
  | _ => none

/-- The error returned at an event, if the event is the return of a non-nil error. -/
def Event.retErr? {M : Type} : Event M → Option GoError
  | .Return _ (some e) => some e
  | _ => none

/-- The calls started in a trace, in order. -/
def goCalls {M : Type} (tr : List (Event M)) : List (Call M) := tr.filterMap Event.goCall?

/-- The calls that returned in a trace, in order of return. -/
def retCalls {M : Type} (tr : List (Event M)) : List (Call M) := tr.filterMap Event.retCall?

/-- The first non-nil error a task returned in a trace. -/
def firstErr {M : Type} (tr : List (Event M)) : Option GoError :=
  (tr.filterMap Event.retErr?).head?

/-- What holds of every state the supervisor reaches from `supervise w calls`. -/
structure Inv {M : Type} (w : World M) (calls : List (Call M)) (s : Sup M) : Prop where
  go_todo : goCalls s.trace ++ s.todo = calls
  ret_run : (retCalls s.trace ++ s.g.running).Perm (goCalls s.trace)
  ret_exec : ∀ c r, Event.Return c r ∈ s.trace → r = w.exec c
  err_eq : s.g.err = firstErr s.trace
  once_eq : s.g.errOnce = (firstErr s.trace).isSome
  cancelled_eq : s.g.cancelled = (s.g.errOnce || s.result.isSome)
  res : ∀ r, s.result = some r → r = s.g.err ∧ s.todo = [] ∧ s.g.running = [] ∧
    ∃ tr, s.trace = tr ++ [Event.Cancel r, Event.WaitReturn r]

/-! ## Lemmas on the supervisor -/

theorem find_eraseP_perm {α : Type} (p : α → Bool) :
    ∀ (l : List α) (k : α), l.find? p = some k → p k = true ∧ (k :: l.eraseP p).Perm l := by
  intro l
  induction l with
  | nil => intro k h; simp at h
  | cons a l ih =>
    intro k h
    by_cases hp : p a = true
    · simp [List.find?_cons, hp] at h
      subst h
      simp [List.eraseP_cons, hp]
    · simp [List.find?_cons, hp] at h
      obtain ⟨h1, h2⟩ := ih k h
      refine ⟨h1, ?_⟩
      simp only [List.eraseP_cons, hp, Bool.false_eq_true, ↓reduceIte]
      exact (List.Perm.swap a k _).trans (h2.cons a)

theorem goCalls_append {M : Type} (a b : List (Event M)) :
    goCalls (a ++ b) = goCalls a ++ goCalls b := by
  simp [goCalls]

theorem retCalls_append {M : Type} (a b : List (Event M)) :
    retCalls (a ++ b) = retCalls a ++ retCalls b := by
  simp [retCalls]

theorem firstErr_append {M : Type} (a b : List (Event M)) :
    firstErr (a ++ b) = (firstErr a).or (firstErr b) := by
  unfold firstErr
  rw [List.filterMap_append]
  cases h : List.filterMap Event.retErr? a <;> simp

theorem step_main_done {M : Type} (w : World M) (s : Sup M) (r : Option GoError)
    (h : s.result = some r) : step w s .main = s := by
  simp [step, h]

theorem step_main_go {M : Type} (w : World M) (s : Sup M) (k : Call M) (rest : List (Call M))
    (h : s.result = none) (ht : s.todo = k :: rest) :
    step w s .main =
      { s with todo := rest, g := s.g.Go k, trace := s.trace ++ [Event.Go k] } := by
  simp [step, h, ht]

theorem step_main_blocked {M : Type} (w : World M) (s : Sup M)
    (h : s.result = none) (ht : s.todo = []) (hr : s.g.running ≠ []) :
    step w s .main = s := by
  simp [step, h, ht, Group.Wait, hr]

theorem step_main_wait {M : Type} (w : World M) (s : Sup M)
    (h : s.result = none) (ht : s.todo = []) (hr : s.g.running = []) :
    step w s .main =
      { s with g := { s.g with cancelled := true },
               trace := s.trace ++ [Event.Cancel s.g.err, Event.WaitReturn s.g.err],
               result := some s.g.err } := by
  simp [step, h, ht, Group.Wait, hr]

theorem step_ret_none {M : Type} (w : World M) (s : Sup M) (t : Task)
    (h : s.g.running.find? (fun c => c.task == t) = none) : step w s (.ret t) = s := by
  simp [step, h]

theorem step_ret_some {M : Type} (w : World M) (s : Sup M) (t : Task) (k : Call M)
    (h : s.g.running.find? (fun c => c.task == t) = some k) :
    step w s (.ret t) =
      { s with g := (s.g.finish k (w.exec k)).1,
               trace := s.trace ++ (s.g.finish k (w.exec k)).2 } := by
  simp [step, h]

theorem inv_init {M : Type} (w : World M) (ctx : Ctx) (calls : List (Call M)) :
    Inv w calls
      { todo := calls, g := (Group.WithContext ctx).1, trace := [], result := none } := by
  constructor <;> simp [goCalls, retCalls, firstErr, Group.WithContext]

theorem inv_step {M : Type} (w : World M) (calls : List (Call M)) (s : Sup M) (c : Choice)
    (h : Inv w calls s) : Inv w calls (step w s c) := by
  cases c with
  | main =>
    cases hr : s.result with
    | some r => rw [step_main_done w s r hr]; exact h
    | none =>
      cases ht : s.todo with
      | cons k rest =>
        rw [step_main_go w s k rest hr ht]
        constructor
        · have := h.go_todo
          rw [ht] at this
          simpa [goCalls_append, goCalls, Event.goCall?] using this
        · have := h.ret_run
          simp only [retCalls_append, goCalls_append, Group.Go]
          simp only [retCalls, goCalls, List.filterMap_cons, List.filterMap_nil, Event.retCall?,
            Event.goCall?, List.append_nil]
          rw [← List.append_assoc]
          exact List.Perm.append_right _ this
        · intro c r hc
          simp only [List.mem_append, List.mem_singleton] at hc
          rcases hc with hc | hc
          · exact h.ret_exec c r hc
          · cases hc
        · simpa [firstErr_append, firstErr, Event.retErr?, Group.Go] using h.err_eq
        · simpa [firstErr_append, firstErr, Event.retErr?, Group.Go] using h.once_eq
        · simpa [Group.Go, hr] using h.cancelled_eq
        · intro r h'; simp [hr] at h'
      | nil =>
        by_cases hrun : s.g.running = []
        · rw [step_main_wait w s hr ht hrun]
          constructor
          · have := h.go_todo
            simpa [goCalls_append, goCalls, Event.goCall?] using this
          · have := h.ret_run
            simpa [retCalls_append, goCalls_append, retCalls, goCalls, Event.retCall?,
              Event.goCall?] using this
          · intro c r hc
            simp only [List.mem_append, List.mem_cons, List.mem_singleton] at hc
            rcases hc with hc | hc
            · exact h.ret_exec c r hc
            · simp at hc
          · simpa [firstErr_append, firstErr, Event.retErr?] using h.err_eq
          · simpa [firstErr_append, firstErr, Event.retErr?] using h.once_eq
          · simp
          · intro r h'
            simp only [Option.some.injEq] at h'
            subst h'
            exact ⟨rfl, ht, hrun, s.trace, rfl⟩
        · rw [step_main_blocked w s hr ht hrun]; exact h
  | ret t =>
    cases hf : s.g.running.find? (fun c => c.task == t) with
    | none => rw [step_ret_none w s t hf]; exact h
    | some k =>
      rw [step_ret_some w s t k hf]
      obtain ⟨hk, hperm⟩ := find_eraseP_perm _ _ _ hf
      have hkt : k.task = t := by simpa using hk
      subst hkt
      have hne : s.g.running ≠ [] := by
        intro h0; rw [h0] at hf; simp at hf
      have hres : s.result = none := by
        cases hr : s.result with
        | none => rfl
        | some r => exact absurd (h.res r hr).2.2.1 hne
      have hrun : (retCalls s.trace ++ k :: s.g.running.eraseP (fun x => x.task == k.task)).Perm
          (goCalls s.trace) :=
        (List.Perm.append_left _ hperm).trans h.ret_run
      cases he : w.exec k with
      | none =>
        constructor
        · simpa [Group.finish, goCalls_append, goCalls, Event.goCall?] using h.go_todo
        · simpa [Group.finish, retCalls_append, goCalls_append, retCalls, goCalls,
            Event.retCall?, Event.goCall?] using hrun
        · intro c r hc
          simp only [Group.finish, List.mem_append, List.mem_singleton] at hc
          rcases hc with hc | hc
          · exact h.ret_exec c r hc
          · cases hc; exact he.symm
        · simpa [Group.finish, firstErr_append, firstErr, Event.retErr?] using h.err_eq
        · simpa [Group.finish, firstErr_append, firstErr, Event.retErr?] using h.once_eq
        · simpa [Group.finish, hres] using h.cancelled_eq
        · intro r h'; simp [hres] at h'
      | some e =>
        by_cases ho : s.g.errOnce = true
        · have hsome : (firstErr s.trace).isSome = true := by rw [← h.once_eq]; exact ho
          obtain ⟨e0, he0⟩ := Option.isSome_iff_exists.mp hsome
          constructor
          · simpa [Group.finish, ho, goCalls_append, goCalls, Event.goCall?] using h.go_todo
          · simpa [Group.finish, ho, retCalls_append, goCalls_append, retCalls, goCalls,
              Event.retCall?, Event.goCall?] using hrun
          · intro c r hc
            simp only [Group.finish, ho, if_true, List.mem_append, List.mem_singleton] at hc
            rcases hc with hc | hc
            · exact h.ret_exec c r hc
            · cases hc; exact he.symm
          · have := h.err_eq
            simp [Group.finish, ho, firstErr_append, he0] at this ⊢
            exact this
          · simp [Group.finish, ho, firstErr_append, he0]
          · simpa [Group.finish, ho, hres] using h.cancelled_eq
          · intro r h'; simp [hres] at h'
        · have ho' : s.g.errOnce = false := by simpa using ho
          have hnone : firstErr s.trace = none := by
            have := h.once_eq
            rw [ho'] at this
            simpa using this.symm
          constructor
          · simpa [Group.finish, ho', goCalls_append, goCalls, Event.goCall?] using h.go_todo
          · simpa [Group.finish, ho', retCalls_append, goCalls_append, retCalls, goCalls,
              Event.retCall?, Event.goCall?] using hrun
          · intro c r hc
            simp only [Group.finish, ho', List.mem_append, List.mem_cons, List.mem_singleton] at hc
            rcases hc with hc | hc
            · exact h.ret_exec c r hc
            · simp at hc
              obtain ⟨h1, h2⟩ := hc; subst h1; subst h2; exact he.symm
          · have h2 : firstErr [Event.Return k (some e), Event.Cancel (some e)] = some e := rfl
            simp [Group.finish, ho', firstErr_append, hnone, h2]
          · have h2 : firstErr [Event.Return k (some e), Event.Cancel (some e)] = some e := rfl
            simp [Group.finish, ho', firstErr_append, hnone, h2]
          · simp [Group.finish, ho']
          · intro r h'; simp [hres] at h'

theorem inv_foldl {M : Type} (w : World M) (calls : List (Call M)) (sched : List Choice) :
    ∀ s : Sup M, Inv w calls s → Inv w calls (sched.foldl (step w) s) := by
  induction sched with
  | nil => intro s h; exact h
  | cons c cs ih => intro s h; exact ih _ (inv_step w calls s c h)

theorem inv_supervise {M : Type} (w : World M) (ctx : Ctx) (calls : List (Call M))
    (sched : List Choice) : Inv w calls (supervise w (Group.WithContext ctx).1 calls sched) :=
  inv_foldl w calls sched _ (inv_init w ctx calls)

theorem mem_goCalls {M : Type} (tr : List (Event M)) (c : Call M) :
    c ∈ goCalls tr ↔ Event.Go c ∈ tr := by
  unfold goCalls
  rw [List.mem_filterMap]
  constructor
  · rintro ⟨ev, hev, h⟩
    cases ev <;> simp [Event.goCall?] at h
    subst h; exact hev
  · intro h; exact ⟨_, h, rfl⟩

theorem mem_retCalls {M : Type} (tr : List (Event M)) (c : Call M) :
    c ∈ retCalls tr ↔ ∃ r, Event.Return c r ∈ tr := by
  unfold retCalls
  rw [List.mem_filterMap]
  constructor
  · rintro ⟨ev, hev, h⟩
    cases ev <;> simp [Event.retCall?] at h
    subst h; exact ⟨_, hev⟩
  · rintro ⟨r, h⟩; exact ⟨_, h, rfl⟩

theorem firstErr_cons {M : Type} (ev : Event M) (tr : List (Event M)) :
    firstErr (ev :: tr) = (Event.retErr? ev).or (firstErr tr) := by
  cases h : Event.retErr? ev <;> simp [firstErr, List.filterMap_cons, h]

theorem retErr_eq_none_iff {M : Type} (ev : Event M) :
    Event.retErr? ev = none ↔ ∀ c e, ev ≠ Event.Return c (some e) := by
  cases ev with
  | Return c r =>
    cases r with
    | none => simp [Event.retErr?]
    | some e =>
      simp only [Event.retErr?, reduceCtorEq, false_iff, not_forall, not_not]
      exact ⟨c, e, rfl⟩
  | _ => simp [Event.retErr?]

theorem firstErr_eq_none_iff {M : Type} (tr : List (Event M)) :
    firstErr tr = none ↔ ∀ c e, Event.Return c (some e) ∉ tr := by
  induction tr with
  | nil => simp [firstErr]
  | cons ev tr ih =>
    rw [firstErr_cons, Option.or_eq_none, ih, retErr_eq_none_iff]
    constructor
    · rintro ⟨h1, h2⟩ c e hmem
      rcases List.mem_cons.mp hmem with h | h
      · exact h1 c e h.symm
      · exact h2 c e h
    · intro h
      exact ⟨fun c e heq => h c e (by rw [heq]; exact List.mem_cons_self _ _),
        fun c e hmem => h c e (List.mem_cons_of_mem _ hmem)⟩

theorem firstErr_eq_some {M : Type} (tr : List (Event M)) (e : GoError) :
    firstErr tr = some e →
      ∃ a c b, tr = a ++ Event.Return c (some e) :: b ∧ firstErr a = none := by
  induction tr with
  | nil => intro h; simp [firstErr] at h
  | cons ev tr ih =>
    intro h
    have hcons : firstErr (ev :: tr) = (firstErr [ev]).or (firstErr tr) :=
      firstErr_append [ev] tr
    rw [hcons] at h
    cases h1 : firstErr [ev] with
    | some e1 =>
      rw [h1, Option.or_some] at h
      cases h
      cases ev with
      | Return c r =>
        cases r with
        | none => cases h1
        | some e2 =>
          have : firstErr [Event.Return c (some e2)] = some e2 := rfl
          rw [this] at h1
          cases h1
          exact ⟨[], c, tr, rfl, rfl⟩
      | _ => cases h1
    | none =>
      rw [h1, Option.none_or] at h
      obtain ⟨a, c, b, hab, ha⟩ := ih h
      refine ⟨ev :: a, c, b, by rw [hab]; rfl, ?_⟩
      have : firstErr (ev :: a) = (firstErr [ev]).or (firstErr a) := firstErr_append [ev] a
      rw [this, h1, ha]; rfl

theorem step_frozen {M : Type} (w : World M) (calls : List (Call M)) (s : Sup M) (c : Choice)
    (h : Inv w calls s) (r : Option GoError) (hr : s.result = some r) : step w s c = s := by
  cases c with
  | main => exact step_main_done w s r hr
  | ret t =>
    apply step_ret_none
    rw [(h.res r hr).2.2.1]; rfl

theorem foldl_frozen {M : Type} (w : World M) (calls : List (Call M)) (sched : List Choice) :
    ∀ (s : Sup M), Inv w calls s → ∀ r, s.result = some r → sched.foldl (step w) s = s := by
  induction sched with
  | nil => intro s _ _ _; rfl
  | cons c cs ih =>
    intro s h r hr
    rw [List.foldl_cons, step_frozen w calls s c h r hr]
    exact ih s h r hr

theorem step_trace {M : Type} (w : World M) (s : Sup M) (c : Choice) :
    ∃ evs, (step w s c).trace = s.trace ++ evs := by
  cases c with
  | main =>
    cases hr : s.result with
    | some r => rw [step_main_done w s r hr]; exact ⟨[], by simp⟩
    | none =>
      cases ht : s.todo with
      | cons k rest => rw [step_main_go w s k rest hr ht]; exact ⟨_, rfl⟩
      | nil =>
        by_cases hrun : s.g.running = []
        · rw [step_main_wait w s hr ht hrun]; exact ⟨_, rfl⟩
        · rw [step_main_blocked w s hr ht hrun]; exact ⟨[], by simp⟩
  | ret t =>
    cases hf : s.g.running.find? (fun c => c.task == t) with
    | none => rw [step_ret_none w s t hf]; exact ⟨[], by simp⟩
    | some k => rw [step_ret_some w s t k hf]; exact ⟨_, rfl⟩

theorem foldl_trace {M : Type} (w : World M) (sched : List Choice) :
    ∀ (s : Sup M), ∃ evs, (sched.foldl (step w) s).trace = s.trace ++ evs := by
  induction sched with
  | nil => intro s; exact ⟨[], by simp⟩
  | cons c cs ih =>
    intro s
    obtain ⟨e1, h1⟩ := step_trace w s c
    obtain ⟨e2, h2⟩ := ih (step w s c)
    exact ⟨e1 ++ e2, by rw [List.foldl_cons, h2, h1, List.append_assoc]⟩

theorem CreateVM_cases {M : Type} (w : World M) (ctx : Ctx) (command : Command)
    (sched : List Choice) :
    (∃ err, w.Rlimit = some err ∧
      CreateVM w ctx command sched =
        { trace := [Event.Rlimit (some err)], result := some (some err)
          cancelled := fun _ => false, vmc := none, cmdline := none }) ∨
    (∃ err, w.Rlimit = none ∧ w.MkdirTemp "" "gvproxy" = .error err ∧
      CreateVM w ctx command sched =
        { trace := [Event.Rlimit none, Event.MkdirTemp "" "gvproxy" (.error err)]
          result := some (some (Errorf "failed to create temp dir: " err))
          cancelled := fun _ => false
          vmc := some (mkVMConfig w command)
          cmdline := none }) ∨
    (∃ d err, w.Rlimit = none ∧ w.MkdirTemp "" "gvproxy" = .ok d ∧
      w.CopyBootstrapInToRootFS (finalVMConfig w command d).RootFS = some err ∧
      CreateVM w ctx command sched =
        { trace := [Event.Rlimit none, Event.MkdirTemp "" "gvproxy" (.ok d),
                    Event.CopyBootstrapInToRootFS (finalVMConfig w command d).RootFS (some err)]
          result := some (some (Errorf "failed to copy dhclient4 to rootfs: " err))
          cancelled := fun _ => false
          vmc := some (finalVMConfig w command d)
          cmdline := some (mkCmdline command) }) ∨
    (∃ d err, w.Rlimit = none ∧ w.MkdirTemp "" "gvproxy" = .ok d ∧
      w.CopyBootstrapInToRootFS (finalVMConfig w command d).RootFS = none ∧
      w.WriteToJsonFile (finalVMConfig w command d)
        (w.Join (finalVMConfig w command d).RootFS w.DefineVMConfig) = some err ∧
      CreateVM w ctx command sched =
        { trace := [Event.Rlimit none, Event.MkdirTemp "" "gvproxy" (.ok d),
                    Event.CopyBootstrapInToRootFS (finalVMConfig w command d).RootFS none,
                    Event.WriteToJsonFile (finalVMConfig w command d)
                      (w.Join (finalVMConfig w command d).RootFS w.DefineVMConfig) (some err)]
          result := some (some (Errorf "failed to write vmconfig to json file: " err))
          cancelled := fun _ => false
          vmc := some (finalVMConfig w command d)
          cmdline := some (mkCmdline command) }) ∨
    (∃ d, PreOK w command d ∧
      CreateVM w ctx command sched =
        { trace := handoffTrace w command d ++
            (supervise w (Group.WithContext ctx).1
              (subsystemCalls (Ctx.withCancel ctx) (finalVMConfig w command d)
                (mkCmdline command)) sched).trace
          result :=
            (supervise w (Group.WithContext ctx).1
              (subsystemCalls (Ctx.withCancel ctx) (finalVMConfig w command d)
                (mkCmdline command)) sched).result
          cancelled := fun x => decide (x = Ctx.withCancel ctx) &&
            (supervise w (Group.WithContext ctx).1
              (subsystemCalls (Ctx.withCancel ctx) (finalVMConfig w command d)
                (mkCmdline command)) sched).g.cancelled
          vmc := some (finalVMConfig w command d)
          cmdline := some (mkCmdline command) }) := by
  cases h1 : w.Rlimit with
  | some err => left; exact ⟨err, rfl, by simp [CreateVM, h1]⟩
  | none =>
    right
    cases h2 : w.MkdirTemp "" "gvproxy" with
    | error err => left; exact ⟨err, rfl, rfl, by simp [CreateVM, h1, h2]⟩
    | ok d =>
      right
      cases h3 : w.CopyBootstrapInToRootFS (finalVMConfig w command d).RootFS with
      | some err => left; exact ⟨d, err, rfl, rfl, h3, by simp [CreateVM, h1, h2, h3]⟩
      | none =>
        right
        cases h4 : w.WriteToJsonFile (finalVMConfig w command d)
            (w.Join (finalVMConfig w command d).RootFS w.DefineVMConfig) with
        | some err => left; exact ⟨d, err, rfl, rfl, h3, h4, by simp [CreateVM, h1, h2, h3, h4]⟩
        | none =>
          right
          exact ⟨d, ⟨h1, h2, h3, h4⟩,
            by simp [CreateVM, h1, h2, h3, h4, handoffTrace, Group.WithContext]⟩

theorem CreateVM_ok {M : Type} (w : World M) (ctx : Ctx) (command : Command)
    (sched : List Choice) (d : String) (h : PreOK w command d) :
    CreateVM w ctx command sched =
      { trace := handoffTrace w command d ++
          (supervise w (Group.WithContext ctx).1
            (subsystemCalls (Ctx.withCancel ctx) (finalVMConfig w command d)
              (mkCmdline command)) sched).trace
        result :=
          (supervise w (Group.WithContext ctx).1
            (subsystemCalls (Ctx.withCancel ctx) (finalVMConfig w command d)
              (mkCmdline command)) sched).result
        cancelled := fun x => decide (x = Ctx.withCancel ctx) &&
          (supervise w (Group.WithContext ctx).1
            (subsystemCalls (Ctx.withCancel ctx) (finalVMConfig w command d)
              (mkCmdline command)) sched).g.cancelled
        vmc := some (finalVMConfig w command d)
        cmdline := some (mkCmdline command) } := by
  obtain ⟨h1, h2, h3, h4⟩ := h
  simp [CreateVM, h1, h2, h3, h4, handoffTrace, Group.WithContext]

theorem eraseP_no_task {M : Type} (t : Task) :
    ∀ (l : List (Call M)), (l.map Call.task).Nodup →
      ∀ x ∈ l.eraseP (fun c => c.task == t), x.task ≠ t := by
  intro l
  induction l with
  | nil => intro _ x hx; simp at hx
  | cons a l ih =>
    intro hnd x hx
    rw [List.map_cons, List.nodup_cons] at hnd
    by_cases ha : a.task = t
    · have : (a :: l).eraseP (fun c => c.task == t) = l := by
        simp [List.eraseP_cons, ha]
      rw [this] at hx
      intro hxt
      exact hnd.1 (List.mem_map.mpr ⟨x, hx, by rw [hxt, ha]⟩)
    · have : (a :: l).eraseP (fun c => c.task == t) = a :: l.eraseP (fun c => c.task == t) := by
        simp [List.eraseP_cons, ha]
      rw [this, List.mem_cons] at hx
      rcases hx with hx | hx
      · subst hx; exact ha
      · exact ih hnd.2 x hx

theorem running_tasks_nodup {M : Type} (w : World M) (calls : List (Call M)) (s : Sup M)
    (h : Inv w calls s) (hnd : (calls.map Call.task).Nodup) :
    (s.g.running.map Call.task).Nodup := by
  have h1 : (goCalls s.trace).Sublist calls := by
    have := h.go_todo
    rw [← this]
    exact List.sublist_append_left _ _
  have h2 : ((goCalls s.trace).map Call.task).Nodup := List.Nodup.sublist (h1.map _) hnd
  have h3 : ((retCalls s.trace ++ s.g.running).map Call.task).Nodup :=
    (List.Perm.nodup_iff (h.ret_run.map _)).mpr h2
  rw [List.map_append] at h3
  exact (List.nodup_append.mp h3).2.1

theorem finish_running {M : Type} (g : Group M) (k : Call M) (r : Option GoError) :
    (g.finish k r).1.running = g.running.eraseP (fun x => x.task == k.task) := by
  cases r with
  | none => rfl
  | some e =>
    by_cases ho : g.errOnce = true
    · simp [Group.finish, ho]
    · simp [Group.finish, ho]

theorem step_ret_clears {M : Type} (w : World M) (calls : List (Call M)) (s : Sup M) (t : Task)
    (h : Inv w calls s) (hnd : (calls.map Call.task).Nodup) :
    ∀ x ∈ (step w s (.ret t)).g.running, x.task ≠ t := by
  cases hf : s.g.running.find? (fun c => c.task == t) with
  | none =>
    rw [step_ret_none w s t hf]
    intro x hx
    have := List.find?_eq_none.mp hf x hx
    simpa using this
  | some k =>
    rw [step_ret_some w s t k hf]
    obtain ⟨hk, _⟩ := find_eraseP_perm _ _ _ hf
    have hkt : k.task = t := by simpa using hk
    subst hkt
    simp only [finish_running]
    exact eraseP_no_task k.task _ (running_tasks_nodup w calls s h hnd)

theorem step_ret_keeps {M : Type} (w : World M) (s : Sup M) (t : Task) :
    (step w s (.ret t)).todo = s.todo ∧ (step w s (.ret t)).result = s.result ∧
      ∀ x ∈ (step w s (.ret t)).g.running, x ∈ s.g.running := by
  cases hf : s.g.running.find? (fun c => c.task == t) with
  | none => rw [step_ret_none w s t hf]; exact ⟨rfl, rfl, fun _ hx => hx⟩
  | some k =>
    rw [step_ret_some w s t k hf]
    refine ⟨rfl, rfl, ?_⟩
    simp only [finish_running]
    intro x hx
    exact List.mem_of_mem_eraseP hx

theorem step_main_todo {M : Type} (w : World M) (s : Sup M)
    (h : (step w s .main).result = none) :
    s.result = none ∧ (step w s .main).todo = s.todo.tail := by
  cases hr : s.result with
  | some r => rw [step_main_done w s r hr, hr] at h; cases h
  | none =>
    refine ⟨rfl, ?_⟩
    cases ht : s.todo with
    | cons k rest => rw [step_main_go w s k rest hr ht]; rfl
    | nil =>
      by_cases hrun : s.g.running = []
      · rw [step_main_wait w s hr ht hrun] at h; cases h
      · rw [step_main_blocked w s hr ht hrun, ht]; rfl

theorem seqSched_finishes {M : Type} (w : World M) (calls : List (Call M)) (s : Sup M)
    (h : Inv w calls s) (hnd : (calls.map Call.task).Nodup) (hlen : calls.length ≤ 3) :
    (seqSched.foldl (step w) s).result ≠ none := by
  have i1 := inv_step w calls s .main h
  have i2 := inv_step w calls _ .main i1
  have i3 := inv_step w calls _ .main i2
  have i4 := inv_step w calls _ (.ret .network) i3
  have i5 := inv_step w calls _ (.ret .ignServer) i4
  have i6 := inv_step w calls _ (.ret .startVM) i5
  simp only [seqSched, List.foldl_cons, List.foldl_nil]
  generalize hs1 : step w s .main = s1 at *
  generalize hs2 : step w s1 .main = s2 at *
  generalize hs3 : step w s2 .main = s3 at *
  generalize hs4 : step w s3 (.ret .network) = s4 at *
  generalize hs5 : step w s4 (.ret .ignServer) = s5 at *
  generalize hs6 : step w s5 (.ret .startVM) = s6 at *
  have k4 := step_ret_keeps w s3 .network
  have k5 := step_ret_keeps w s4 .ignServer
  have k6 := step_ret_keeps w s5 .startVM
  rw [hs4] at k4
  rw [hs5] at k5
  rw [hs6] at k6
  cases hr3 : s3.result with
  | some r =>
    have hr6 : s6.result = some r := by rw [k6.2.1, k5.2.1, k4.2.1, hr3]
    rw [step_main_done w s6 r hr6, hr6]; simp
  | none =>
    have t3 := step_main_todo w s2 (by rw [hs3]; exact hr3)
    rw [hs3] at t3
    have t2 := step_main_todo w s1 (by rw [hs2]; exact t3.1)
    rw [hs2] at t2
    have t1 := step_main_todo w s (by rw [hs1]; exact t2.1)
    rw [hs1] at t1
    have hlen0 : s.todo.length ≤ 3 := by
      have := congrArg List.length h.go_todo
      rw [List.length_append] at this
      omega
    have htodo3 : s3.todo = [] := by
      rw [t3.2, t2.2, t1.2]
      apply List.eq_nil_of_length_eq_zero
      simp only [List.length_tail]
      omega
    have c4 := step_ret_clears w calls s3 .network i3 hnd
    have c5 := step_ret_clears w calls s4 .ignServer i4 hnd
    have c6 := step_ret_clears w calls s5 .startVM i5 hnd
    rw [hs4] at c4
    rw [hs5] at c5
    rw [hs6] at c6
    have hrun6 : s6.g.running = [] := by
      apply List.eq_nil_iff_forall_not_mem.mpr
      intro x hx
      have h6 := c6 x hx
      have h5 := c5 x (k6.2.2 x hx)
      have h4 := c4 x (k5.2.2 x (k6.2.2 x hx))
      cases ht : x.task with
      | network => exact h4 ht
      | ignServer => exact h5 ht
      | startVM => exact h6 ht
    have hr6 : s6.result = none := by rw [k6.2.1, k5.2.1, k4.2.1, hr3]
    have ht6 : s6.todo = [] := by rw [k6.1, k5.1, k4.1, htodo3]
    rw [step_main_wait w s6 hr6 ht6 hrun6]
    simp

theorem supervise_append {M : Type} (w : World M) (g : Group M) (calls : List (Call M))
    (s1 s2 : List Choice) :
    supervise w g calls (s1 ++ s2) = s2.foldl (step w) (supervise w g calls s1) := by
  simp [supervise, List.foldl_append]

theorem supervise_finishes {M : Type} (w : World M) (ctx : Ctx) (calls : List (Call M))
    (sched : List Choice) (hnd : (calls.map Call.task).Nodup) (hlen : calls.length ≤ 3) :
    (supervise w (Group.WithContext ctx).1 calls (sched ++ seqSched)).result ≠ none := by
  rw [supervise_append]
  exact seqSched_finishes w calls _ (inv_supervise w ctx calls sched) hnd hlen

theorem subsystemCalls_nodup {M : Type} (ctx : Ctx) (vmc : VMConfig M) (cmdline : Cmdline) :
    ((subsystemCalls ctx vmc cmdline).map Call.task).Nodup := by
  simp [subsystemCalls, Call.task]

/-- What the returned value of the supervisor is, for any list of calls. -/
theorem supervise_result {M : Type} (w : World M) (ctx : Ctx) (calls : List (Call M))
    (sched : List Choice) (r : Option GoError)
    (hr : (supervise w (Group.WithContext ctx).1 calls sched).result = some r) :
    goCalls (supervise w (Group.WithContext ctx).1 calls sched).trace = calls ∧
    (retCalls (supervise w (Group.WithContext ctx).1 calls sched).trace).Perm calls ∧
    (r = none ↔ ∀ c ∈ calls, w.exec c = none) ∧
    (∀ e, r = some e → ∃ a c b,
      (supervise w (Group.WithContext ctx).1 calls sched).trace =
        a ++ Event.Return c (some e) :: b ∧
      (∀ c1 e1, Event.Return c1 (some e1) ∉ a) ∧ c ∈ calls ∧ w.exec c = some e) := by
  have h := inv_supervise w ctx calls sched
  generalize supervise w (Group.WithContext ctx).1 calls sched = s at *
  obtain ⟨hre, htodo, hrun, tr, htr⟩ := h.res r hr
  have hgo : goCalls s.trace = calls := by
    have := h.go_todo
    rwa [htodo, List.append_nil] at this
  have hret : (retCalls s.trace).Perm calls := by
    have := h.ret_run
    rwa [hrun, List.append_nil, hgo] at this
  have hmem : ∀ c, c ∈ calls ↔ ∃ r1, Event.Return c r1 ∈ s.trace := by
    intro c
    rw [← mem_retCalls]
    exact (hret.mem_iff).symm
  refine ⟨hgo, hret, ?_, ?_⟩
  · rw [hre, h.err_eq, firstErr_eq_none_iff]
    constructor
    · intro hno c hc
      obtain ⟨r1, hr1⟩ := (hmem c).mp hc
      cases r1 with
      | none => exact (h.ret_exec c none hr1).symm
      | some e => exact absurd hr1 (hno c e)
    · intro hall c e hce
      have h1 := h.ret_exec c (some e) hce
      have h2 := hall c ((hmem c).mpr ⟨_, hce⟩)
      rw [h2] at h1; cases h1
  · intro e he
    have hfe : firstErr s.trace = some e := by rw [← h.err_eq, ← hre, he]
    obtain ⟨a, c, b, hab, ha⟩ := firstErr_eq_some s.trace e hfe
    have hin : Event.Return c (some e) ∈ s.trace := by rw [hab]; simp
    exact ⟨a, c, b, hab, (firstErr_eq_none_iff a).mp ha, (hmem c).mpr ⟨_, hin⟩,
      (h.ret_exec c (some e) hin).symm⟩

theorem go_mem_supervise {M : Type} (w : World M) (ctx : Ctx) (calls : List (Call M))
    (sched : List Choice) (c : Call M)
    (h : Event.Go c ∈ (supervise w (Group.WithContext ctx).1 calls sched).trace) :
    c ∈ calls := by
  have hi := inv_supervise w ctx calls sched
  rw [← hi.go_todo]
  exact List.mem_append_left _ ((mem_goCalls _ _).mpr h)

theorem write_not_mem_supervise {M : Type} (w : World M) (g : Group M)
    (calls : List (Call M)) (sched : List Choice) (v : VMConfig M) (f : String)
    (r : Option GoError) :
    Event.WriteToJsonFile v f r ∉ (supervise w g calls sched).trace := by
  suffices h : ∀ (l : List Choice) (s : Sup M), Event.WriteToJsonFile v f r ∉ s.trace →
      Event.WriteToJsonFile v f r ∉ (l.foldl (step w) s).trace by
    exact h sched _ (by simp)
  intro l
  induction l with
  | nil => intro s hs; exact hs
  | cons c cs ih =>
    intro s hs
    apply ih
    cases c with
    | main =>
      cases hr : s.result with
      | some r => rw [step_main_done w s r hr]; exact hs
      | none =>
        cases ht : s.todo with
        | cons k rest => rw [step_main_go w s k rest hr ht]; simpa using hs
        | nil =>
          by_cases hrun : s.g.running = []
          · rw [step_main_wait w s hr ht hrun]; simpa using hs
          · rw [step_main_blocked w s hr ht hrun]; exact hs
    | ret t =>
      cases hf : s.g.running.find? (fun c => c.task == t) with
      | none => rw [step_ret_none w s t hf]; exact hs
      | some k =>
        rw [step_ret_some w s t k hf]
        cases he : w.exec k with
        | none => simpa [Group.finish] using hs
        | some e =>
          by_cases ho : s.g.errOnce = true
          · simpa [Group.finish, ho] using hs
          · simpa [Group.finish, ho] using hs

theorem string_append_left_cancel (p a b q : String) (h : p ++ a ++ q = p ++ b ++ q) : a = b := by
  have h1 := congrArg String.data h
  simp only [String.data_append] at h1
  have h2 := List.append_cancel_right h1
  have h3 := List.append_cancel_left h2
  exact String.ext h3

theorem go_mem_CreateVM {M : Type} (w : World M) (ctx : Ctx) (command : Command) (sched : List Choice)
    (c : Call M) (h : Event.Go c ∈ (CreateVM w ctx command sched).trace) :
    ∃ d, PreOK w command d ∧
      c ∈ subsystemCalls (Ctx.withCancel ctx) (finalVMConfig w command d)
        (mkCmdline command) := by
  rcases CreateVM_cases w ctx command sched with ⟨err, _, he⟩ | ⟨err, _, _, he⟩ |
    ⟨d1, err, _, _, _, he⟩ | ⟨d1, err, _, _, _, _, he⟩ | ⟨d1, hok, he⟩
  · rw [he] at h; simp at h
  · rw [he] at h; simp at h
  · rw [he] at h; simp at h
  · rw [he] at h; simp at h
  · rw [he] at h
    simp only [List.mem_append] at h
    rcases h with h | h
    · simp [handoffTrace] at h
    · exact ⟨d1, hok, go_mem_supervise _ _ _ _ _ h⟩

theorem write_mem_CreateVM {M : Type} (w : World M) (ctx : Ctx) (command : Command) (sched : List Choice)
    (v : VMConfig M) (f : String) (r : Option GoError)
    (h : Event.WriteToJsonFile v f r ∈ (CreateVM w ctx command sched).trace) :
    ∃ d, w.MkdirTemp "" "gvproxy" = .ok d ∧
      f = w.Join command.rootfs w.DefineVMConfig ∧ v = finalVMConfig w command d := by
  rcases CreateVM_cases w ctx command sched with ⟨err, _, he⟩ | ⟨err, _, _, he⟩ |
    ⟨d1, err, _, h2, _, he⟩ | ⟨d1, err, _, h2, _, _, he⟩ | ⟨d1, ⟨_, h2, _, _⟩, he⟩
  · rw [he] at h; simp at h
  · rw [he] at h; simp at h
  · rw [he] at h; simp at h
  · refine ⟨d1, h2, ?_, ?_⟩
    · rw [he] at h; simp at h; exact h.2.1
    · rw [he] at h; simp at h; exact h.1
  · refine ⟨d1, h2, ?_, ?_⟩
    · rw [he] at h
      simp only [List.mem_append] at h
      rcases h with h | h
      · simp [handoffTrace] at h; exact h.2.1
      · exact absurd h (write_not_mem_supervise _ _ _ _ _ _ _)
    · rw [he] at h
      simp only [List.mem_append] at h
      rcases h with h | h
      · simp [handoffTrace] at h; exact h.1
      · exact absurd h (write_not_mem_supervise _ _ _ _ _ _ _)

theorem vmc_of_mem_subsystemCalls {M : Type} (ctx : Ctx) (vmc : VMConfig M) (cmdline : Cmdline)
    (c : Call M) (h : c ∈ subsystemCalls ctx vmc cmdline) : c.vmc = vmc ∧ c.ctx = ctx := by
  simp only [subsystemCalls, List.mem_cons, List.mem_singleton, List.not_mem_nil,
    or_false] at h
  rcases h with h | h | h <;> (subst h; exact ⟨rfl, rfl⟩)

theorem go_mem_of_finished {M : Type} (w : World M) (ctx : Ctx) (command : Command)
    (sched : List Choice) (d : String) (hok : PreOK w command d) (c : Call M)
    (hc : c ∈ subsystemCalls (Ctx.withCancel ctx) (finalVMConfig w command d)
      (mkCmdline command)) :
    Event.Go c ∈ (CreateVM w ctx command (sched ++ seqSched)).trace := by
  rw [CreateVM_ok w ctx command _ d hok]
  apply List.mem_append_right
  have hfin := supervise_finishes w ctx
    (subsystemCalls (Ctx.withCancel ctx) (finalVMConfig w command d) (mkCmdline command)) sched
    (subsystemCalls_nodup _ _ _) (by simp [subsystemCalls])
  obtain ⟨r, hr⟩ := Option.ne_none_iff_exists'.mp hfin
  have hgo := (supervise_result w ctx _ _ r hr).1
  rw [← mem_goCalls, hgo]
  exact hc

theorem locals_CreateVM {M : Type} (w : World M) (ctx : Ctx) (command : Command)
    (sched : List Choice) (d : String) (h1 : w.Rlimit = none)
    (h2 : w.MkdirTemp "" "gvproxy" = .ok d) :
    (CreateVM w ctx command sched).vmc = some (finalVMConfig w command d) ∧
    (CreateVM w ctx command sched).cmdline = some (mkCmdline command) := by
  rcases CreateVM_cases w ctx command sched with ⟨err, k1, _⟩ | ⟨err, _, k2, _⟩ |
    ⟨d1, err, _, k2, _, he⟩ | ⟨d1, err, _, k2, _, _, he⟩ | ⟨d1, ⟨_, k2, _, _⟩, he⟩
  · rw [h1] at k1; cases k1
  · rw [h2] at k2; cases k2
  · rw [h2] at k2; cases k2; rw [he]; exact ⟨rfl, rfl⟩
  · rw [h2] at k2; cases k2; rw [he]; exact ⟨rfl, rfl⟩
  · rw [h2] at k2; cases k2; rw [he]; exact ⟨rfl, rfl⟩

theorem write_mem_of_copied {M : Type} (w : World M) (ctx : Ctx) (command : Command)
    (sched : List Choice) (d : String) (h1 : w.Rlimit = none)
    (h2 : w.MkdirTemp "" "gvproxy" = .ok d)
    (h3 : w.CopyBootstrapInToRootFS command.rootfs = none) :
    Event.WriteToJsonFile (finalVMConfig w command d) (w.Join command.rootfs w.DefineVMConfig)
      (w.WriteToJsonFile (finalVMConfig w command d)
        (w.Join command.rootfs w.DefineVMConfig)) ∈ (CreateVM w ctx command sched).trace := by
  have hR : (finalVMConfig w command d).RootFS = command.rootfs := rfl
  rcases CreateVM_cases w ctx command sched with ⟨err, k1, _⟩ | ⟨err, _, k2, _⟩ |
    ⟨d1, err, _, k2, k3, he⟩ | ⟨d1, err, _, k2, _, k4, he⟩ | ⟨d1, ⟨_, k2, _, k4⟩, he⟩
  · rw [h1] at k1; cases k1
  · rw [h2] at k2; cases k2
  · rw [h2] at k2; cases k2
    rw [hR, h3] at k3; cases k3
  · rw [h2] at k2; cases k2
    rw [hR] at k4
    rw [he, k4, hR]
    simp
  · rw [h2] at k2; cases k2
    rw [hR] at k4
    rw [he, k4]
    simp [handoffTrace, hR]

/-! ## The claims -/

/-- C1: whenever one of the three subsystem entry points is dispatched in a run
of `CreateVM`, then `Rlimit`, `MkdirTemp`, `CopyBootstrapInToRootFS` on the rootfs
and `WriteToJsonFile` on the joined handoff path have all returned without
error, they are the first four events of the run in that order, and the
dispatch comes after them. -/
theorem C1_dispatch_after_handoff {M : Type} (w : World M) (ctx : Ctx) (command : Command)
    (sched : List Choice) (c : Call M)
    (h : Event.Go c ∈ (CreateVM w ctx command sched).trace) :
    ∃ d rest,
      w.Rlimit = none ∧ w.MkdirTemp "" "gvproxy" = .ok d ∧
      w.CopyBootstrapInToRootFS command.rootfs = none ∧
      w.WriteToJsonFile (finalVMConfig w command d)
        (w.Join command.rootfs w.DefineVMConfig) = none ∧
      (CreateVM w ctx command sched).trace =
        [Event.Rlimit none, Event.MkdirTemp "" "gvproxy" (.ok d),
         Event.CopyBootstrapInToRootFS command.rootfs none,
         Event.WriteToJsonFile (finalVMConfig w command d)
           (w.Join command.rootfs w.DefineVMConfig) none] ++ rest ∧
      Event.Go c ∈ rest := by
  rcases CreateVM_cases w ctx command sched with ⟨err, _, he⟩ | ⟨err, _, _, he⟩ |
    ⟨d, err, _, _, _, he⟩ | ⟨d, err, _, _, _, _, he⟩ | ⟨d, hok, he⟩
  · rw [he] at h; simp at h
  · rw [he] at h; simp at h
  · rw [he] at h; simp at h
  · rw [he] at h; simp at h
  · rw [he] at h ⊢
    obtain ⟨h1, h2, h3, h4⟩ := hok
    refine ⟨d, _, h1, h2, h3, h4, rfl, ?_⟩
    simpa [handoffTrace] using h

/-- A run in which the network stack is dispatched, for C1. -/
theorem C1_dispatch_after_handoff_witness :
    ∃ d rest,
      okWorld.Rlimit = none ∧ okWorld.MkdirTemp "" "gvproxy" = .ok d ∧
      okWorld.CopyBootstrapInToRootFS shCommand.rootfs = none ∧
      okWorld.WriteToJsonFile (finalVMConfig okWorld shCommand d)
        (okWorld.Join shCommand.rootfs okWorld.DefineVMConfig) = none ∧
      (CreateVM okWorld Ctx.background shCommand seqSched).trace =
        [Event.Rlimit none, Event.MkdirTemp "" "gvproxy" (.ok d),
         Event.CopyBootstrapInToRootFS shCommand.rootfs none,
         Event.WriteToJsonFile (finalVMConfig okWorld shCommand d)
           (okWorld.Join shCommand.rootfs okWorld.DefineVMConfig) none] ++ rest ∧
      Event.Go (Call.StartNetworking (Ctx.withCancel Ctx.background)
        (finalVMConfig okWorld shCommand "/tmp/gvproxy1")) ∈ rest :=
  C1_dispatch_after_handoff okWorld Ctx.background shCommand seqSched
    (Call.StartNetworking (Ctx.withCancel Ctx.background)
      (finalVMConfig okWorld shCommand "/tmp/gvproxy1"))
    (List.Mem.tail _ (List.Mem.tail _ (List.Mem.tail _ (List.Mem.tail _ (List.Mem.head _)))))

/-- C2: when one of the four steps before dispatch fails, `CreateVM` returns a
non-nil error, the run consists of the steps up to the failing one only (no
later step is executed), and no subsystem is started, under every schedule. -/
theorem C2_predispatch_failure_aborts {M : Type} (w : World M) (ctx : Ctx) (command : Command)
    (sched : List Choice) :
    (∀ err, w.Rlimit = some err →
      (CreateVM w ctx command sched).result = some (some err) ∧
      (CreateVM w ctx command sched).trace = [Event.Rlimit (some err)]) ∧
    (∀ err, w.Rlimit = none → w.MkdirTemp "" "gvproxy" = .error err →
      (CreateVM w ctx command sched).result =
        some (some (Errorf "failed to create temp dir: " err)) ∧
      (CreateVM w ctx command sched).trace =
        [Event.Rlimit none, Event.MkdirTemp "" "gvproxy" (.error err)]) ∧
    (∀ d err, w.Rlimit = none → w.MkdirTemp "" "gvproxy" = .ok d →
      w.CopyBootstrapInToRootFS command.rootfs = some err →
      (CreateVM w ctx command sched).result =
        some (some (Errorf "failed to copy dhclient4 to rootfs: " err)) ∧
      (CreateVM w ctx command sched).trace =
        [Event.Rlimit none, Event.MkdirTemp "" "gvproxy" (.ok d),
         Event.CopyBootstrapInToRootFS command.rootfs (some err)]) ∧
    (∀ d err, w.Rlimit = none → w.MkdirTemp "" "gvproxy" = .ok d →
      w.CopyBootstrapInToRootFS command.rootfs = none →
      w.WriteToJsonFile (finalVMConfig w command d)
        (w.Join command.rootfs w.DefineVMConfig) = some err →
      (CreateVM w ctx command sched).result =
        some (some (Errorf "failed to write vmconfig to json file: " err)) ∧
      (CreateVM w ctx command sched).trace =
        [Event.Rlimit none, Event.MkdirTemp "" "gvproxy" (.ok d),
         Event.CopyBootstrapInToRootFS command.rootfs none,
         Event.WriteToJsonFile (finalVMConfig w command d)
           (w.Join command.rootfs w.DefineVMConfig) (some err)]) ∧
    ((¬ ∃ d, PreOK w command d) →
      (∃ e, (CreateVM w ctx command sched).result = some (some e)) ∧
      ∀ c, Event.Go c ∉ (CreateVM w ctx command sched).trace) := by
  have hroot : ∀ d, (finalVMConfig w command d).RootFS = command.rootfs := fun _ => rfl
  refine ⟨?_, ?_, ?_, ?_, ?_⟩
  · intro err h1
    simp [CreateVM, h1]
  · intro err h1 h2
    simp [CreateVM, h1, h2]
  · intro d err h1 h2 h3
    simp [CreateVM, h1, h2, hroot, h3]
  · intro d err h1 h2 h3 h4
    simp [CreateVM, h1, h2, hroot, h3, h4]
  · intro hno
    rcases CreateVM_cases w ctx command sched with ⟨err, _, he⟩ | ⟨err, _, _, he⟩ |
      ⟨d, err, _, _, _, he⟩ | ⟨d, err, _, _, _, _, he⟩ | ⟨d, hok, _⟩
    · rw [he]; exact ⟨⟨_, rfl⟩, by simp⟩
    · rw [he]; exact ⟨⟨_, rfl⟩, by simp⟩
    · rw [he]; exact ⟨⟨_, rfl⟩, by simp⟩
    · rw [he]; exact ⟨⟨_, rfl⟩, by simp⟩
    · exact absurd ⟨d, hok⟩ hno

/-- A run in which each of the four steps fails in turn, for C2. -/
theorem C2_predispatch_failure_aborts_witness :
    ((CreateVM rlimitFails Ctx.background shCommand seqSched).result =
        some (some ⟨"operation not permitted"⟩) ∧
      (CreateVM rlimitFails Ctx.background shCommand seqSched).trace =
        [Event.Rlimit (some ⟨"operation not permitted"⟩)]) ∧
    ((∃ e, (CreateVM writeFails Ctx.background shCommand seqSched).result = some (some e)) ∧
      ∀ c, Event.Go c ∉ (CreateVM writeFails Ctx.background shCommand seqSched).trace) :=
  ⟨(C2_predispatch_failure_aborts rlimitFails Ctx.background shCommand seqSched).1 _ rfl,
   (C2_predispatch_failure_aborts writeFails Ctx.background shCommand seqSched).2.2.2.2
     (by rintro ⟨d, _, _, _, h⟩; cases h)⟩

/-- C5: once `Rlimit` has succeeded and `os.MkdirTemp` has returned the
directory `d`, `CreateVM` holds a configuration `vmc` whose control endpoint is
exactly `unix://d/gvproxy-control.sock` and whose data endpoint is exactly
`unixgram://d/vfkit-network-backend.sock`: the first starts with `unix://d`, the
second with `unixgram://d`, and both end in `.sock`.  This configuration is the
one every `WriteToJsonFile` and every dispatch of the run carries; it is written
as soon as the bootstrap copy succeeds, and it is handed to each of the three
subsystems when the four steps succeed and the schedule lets them start. -/
theorem C5_endpoints_from_workspace {M : Type} (w : World M) (ctx : Ctx) (command : Command)
    (sched : List Choice) (d : String) (hr : w.Rlimit = none)
    (hd : w.MkdirTemp "" "gvproxy" = .ok d) :
    ∃ v, (CreateVM w ctx command sched).vmc = some v ∧
      v.GVproxyEndpoint = "unix://" ++ d ++ "/gvproxy-control.sock" ∧
      v.NetworkStackBackend = "unixgram://" ++ d ++ "/vfkit-network-backend.sock" ∧
      ("unix://" ++ d).data <+: v.GVproxyEndpoint.data ∧
      ("unixgram://" ++ d).data <+: v.NetworkStackBackend.data ∧
      ".sock".data <:+ v.GVproxyEndpoint.data ∧
      ".sock".data <:+ v.NetworkStackBackend.data ∧
      (∀ v1 f r, Event.WriteToJsonFile v1 f r ∈ (CreateVM w ctx command sched).trace →
        v1 = v) ∧
      (∀ c, Event.Go c ∈ (CreateVM w ctx command sched).trace → c.vmc = v) ∧
      (w.CopyBootstrapInToRootFS command.rootfs = none →
        Event.WriteToJsonFile v (w.Join command.rootfs w.DefineVMConfig)
          (w.WriteToJsonFile v (w.Join command.rootfs w.DefineVMConfig)) ∈
            (CreateVM w ctx command sched).trace) ∧
      (PreOK w command d →
        Event.Go (Call.StartNetworking (Ctx.withCancel ctx) v) ∈
          (CreateVM w ctx command (sched ++ seqSched)).trace ∧
        Event.Go (Call.IgnServer (Ctx.withCancel ctx) v) ∈
          (CreateVM w ctx command (sched ++ seqSched)).trace ∧
        Event.Go (Call.StartVM (Ctx.withCancel ctx) v (mkCmdline command)) ∈
          (CreateVM w ctx command (sched ++ seqSched)).trace) := by
  refine ⟨finalVMConfig w command d, (locals_CreateVM w ctx command sched d hr hd).1, rfl, rfl,
    ?_, ?_, ?_, ?_, ?_, ?_, ?_, ?_⟩
  · exact ⟨"/gvproxy-control.sock".data, by
      simp [finalVMConfig, GVproxyEndpoint, String.data_append]⟩
  · exact ⟨"/vfkit-network-backend.sock".data, by
      simp [finalVMConfig, NetworkStackBackend, String.data_append]⟩
  · refine ⟨("unix://" ++ d ++ "/gvproxy-control").data, ?_⟩
    simp only [finalVMConfig, GVproxyEndpoint, String.data_append, List.append_assoc]
    rfl
  · refine ⟨("unixgram://" ++ d ++ "/vfkit-network-backend").data, ?_⟩
    simp only [finalVMConfig, NetworkStackBackend, String.data_append, List.append_assoc]
    rfl
  · intro v f r h
    obtain ⟨d1, h2, _, hv⟩ := write_mem_CreateVM w ctx command sched v f r h
    rw [hd] at h2; cases h2
    exact hv
  · intro c h
    obtain ⟨d1, ⟨_, h2, _, _⟩, hc⟩ := go_mem_CreateVM w ctx command sched c h
    rw [hd] at h2; cases h2
    exact (vmc_of_mem_subsystemCalls _ _ _ c hc).1
  · intro h3
    exact write_mem_of_copied w ctx command sched d hr hd h3
  · intro hok
    exact ⟨go_mem_of_finished w ctx command sched d hok _ (by simp [subsystemCalls]),
      go_mem_of_finished w ctx command sched d hok _ (by simp [subsystemCalls]),
      go_mem_of_finished w ctx command sched d hok _ (by simp [subsystemCalls])⟩

/-- The endpoints that a run with the workspace `/tmp/gvproxy1` holds, for C5. -/
theorem C5_endpoints_from_workspace_witness :
    ∃ v, (CreateVM okWorld Ctx.background shCommand seqSched).vmc = some v ∧
      v.GVproxyEndpoint = "unix://" ++ "/tmp/gvproxy1" ++ "/gvproxy-control.sock" ∧
      v.NetworkStackBackend = "unixgram://" ++ "/tmp/gvproxy1" ++ "/vfkit-network-backend.sock" :=
  (C5_endpoints_from_workspace okWorld Ctx.background shCommand seqSched "/tmp/gvproxy1" rfl
    rfl).imp fun _ h => ⟨h.1, h.2.1, h.2.2.1⟩

/-- C6: the endpoints derived from two different workspaces differ, control
from control and data from data, and a control endpoint never equals a data
endpoint, whatever the two workspaces are. -/
theorem C6_endpoints_collision_free {M : Type} (w1 w2 : World M) (c1 c2 : Command)
    (d1 d2 : String) :
    (d1 ≠ d2 →
      (finalVMConfig w1 c1 d1).GVproxyEndpoint ≠ (finalVMConfig w2 c2 d2).GVproxyEndpoint ∧
      (finalVMConfig w1 c1 d1).NetworkStackBackend ≠
        (finalVMConfig w2 c2 d2).NetworkStackBackend) ∧
    (finalVMConfig w1 c1 d1).GVproxyEndpoint ≠ (finalVMConfig w2 c2 d2).NetworkStackBackend := by
  refine ⟨fun hne => ⟨?_, ?_⟩, ?_⟩
  · intro h
    exact hne (string_append_left_cancel _ _ _ _ h)
  · intro h
    exact hne (string_append_left_cancel _ _ _ _ h)
  · intro h
    have h1 := congrArg String.data h
    simp [finalVMConfig, GVproxyEndpoint, NetworkStackBackend, String.data_append] at h1

/-- Two workspaces and their endpoints, for C6. -/
theorem C6_endpoints_collision_free_witness :
    (finalVMConfig okWorld shCommand "/tmp/gvproxy1").GVproxyEndpoint ≠
      (finalVMConfig okWorld shCommand "/tmp/gvproxy2").GVproxyEndpoint ∧
    (finalVMConfig okWorld shCommand "/tmp/gvproxy1").NetworkStackBackend ≠
      (finalVMConfig okWorld shCommand "/tmp/gvproxy2").NetworkStackBackend :=
  (C6_endpoints_collision_free okWorld okWorld shCommand shCommand "/tmp/gvproxy1"
    "/tmp/gvproxy2").1 (by decide)

/-- C10: the boot command built by `CreateVM` has the arguments
`[First(args)] ++ Tail(args)`, which is `args` itself when `args` is not empty
and the one-element list of the empty string when it is; so the list is never
empty and has `max 1 (length args)` elements.  The workspace is `/`, the target
binary `/bootstrap-arm64`, the environment the `--envs` list unchanged.
`CreateVM` holds this boot command in `cmdline` once `Rlimit` and `os.MkdirTemp`
have succeeded; every `StartVM` dispatched in a run receives exactly it, and
`StartVM` is dispatched with it when the four steps succeed and the schedule
lets the tasks start. -/
theorem C10_boot_command {M : Type} (w : World M) (ctx : Ctx) (command : Command)
    (sched : List Choice) :
    (mkCmdline command).TargetBinArgs = [Args.First command.args] ++ Args.Tail command.args ∧
    Args.First [] = "" ∧
    (∀ a : List String, a.length < 2 → Args.Tail a = []) ∧
    (mkCmdline command).TargetBinArgs = (if command.args = [] then [""] else command.args) ∧
    (mkCmdline command).TargetBinArgs ≠ [] ∧
    (mkCmdline command).TargetBinArgs.length = max 1 command.args.length ∧
    (mkCmdline command).Workspace = "/" ∧
    (mkCmdline command).TargetBin = "/bootstrap-arm64" ∧
    (mkCmdline command).Env = command.envs ∧
    (∀ c v cl, Event.Go (Call.StartVM c v cl) ∈ (CreateVM w ctx command sched).trace →
      cl = mkCmdline command) ∧
    (∀ d, w.Rlimit = none → w.MkdirTemp "" "gvproxy" = .ok d →
      (CreateVM w ctx command sched).cmdline = some (mkCmdline command)) ∧
    (∀ d, PreOK w command d →
      Event.Go (Call.StartVM (Ctx.withCancel ctx) (finalVMConfig w command d)
        (mkCmdline command)) ∈ (CreateVM w ctx command (sched ++ seqSched)).trace) := by
  have hargs : (mkCmdline command).TargetBinArgs =
      (if command.args = [] then [""] else command.args) := by
    simp only [mkCmdline, Command.Args]
    cases h : command.args with
    | nil => simp [Args.First, Args.Get, Args.Tail]
    | cons a l =>
      cases l with
      | nil => simp [Args.First, Args.Get, Args.Tail]
      | cons b l => simp [Args.First, Args.Get, Args.Tail]
  refine ⟨rfl, rfl, ?_, hargs, ?_, ?_, rfl, rfl, rfl, ?_, ?_, ?_⟩
  · intro a ha
    simp [Args.Tail]
    omega
  · rw [hargs]; split <;> simp [*]
  · rw [hargs]
    split
    · next h => simp [h]
    · next h =>
      have : 1 ≤ command.args.length := by
        cases h2 : command.args with
        | nil => exact absurd h2 h
        | cons a l => simp
      omega
  · intro c v cl h
    obtain ⟨d1, _, hc⟩ := go_mem_CreateVM w ctx command sched _ h
    simp only [subsystemCalls, List.mem_cons, List.mem_singleton, List.not_mem_nil,
      or_false] at hc
    rcases hc with h | h | h
    · cases h
    · cases h
    · cases h; rfl
  · intro d h1 h2
    exact (locals_CreateVM w ctx command sched d h1 h2).2
  · intro d hok
    exact go_mem_of_finished w ctx command sched d hok _ (by simp [subsystemCalls])

/-- The boot command of a command line without positional arguments and of one
with three, and the boot command a run holds and dispatches, for C10. -/
theorem C10_boot_command_witness :
    (mkCmdline emptyRootfs).TargetBinArgs = ["sh", "-c", "echo hi"] ∧
    (mkCmdline { shCommand with args := [] }).TargetBinArgs = [""] ∧
    (CreateVM okWorld Ctx.background shCommand startSched).cmdline =
      some (mkCmdline shCommand) ∧
    Event.Go (Call.StartVM (Ctx.withCancel Ctx.background)
      (finalVMConfig okWorld shCommand "/tmp/gvproxy1") (mkCmdline shCommand)) ∈
        (CreateVM okWorld Ctx.background shCommand (startSched ++ seqSched)).trace :=
  ⟨(C10_boot_command okWorld Ctx.background emptyRootfs seqSched).2.2.2.1,
   (C10_boot_command okWorld Ctx.background { shCommand with args := [] } seqSched).2.2.2.1,
   (C10_boot_command okWorld Ctx.background shCommand startSched).2.2.2.2.2.2.2.2.2.2.1
     "/tmp/gvproxy1" rfl rfl,
   (C10_boot_command okWorld Ctx.background shCommand startSched).2.2.2.2.2.2.2.2.2.2.2
     "/tmp/gvproxy1" ⟨rfl, rfl, rfl, rfl⟩⟩

theorem writtenDocs_supervise {M : Type} (w : World M) (g : Group M) (calls : List (Call M))
    (sched : List Choice) : writtenDocs (supervise w g calls sched).trace = [] := by
  unfold writtenDocs
  rw [List.filterMap_eq_nil_iff]
  intro ev hev
  cases ev with
  | WriteToJsonFile v f r => exact absurd hev (write_not_mem_supervise _ _ _ _ _ _ _)
  | _ => rfl

/-- C7, as stated, fails: with `--rootfs ""`, in a world where copying the
bootstrap binary fails, `os.MkdirTemp` has been called and has made a workspace
before `CreateVM` returns; and where the collaborators succeed the subsystems are
started and `CreateVM` returns nil. -/
theorem C7_counterexample :
    emptyRootfs.rootfs = "" ∧
    (CreateVM copyFails Ctx.background emptyRootfs seqSched).trace =
      [Event.Rlimit none, Event.MkdirTemp "" "gvproxy" (.ok "/tmp/gvproxy1"),
       Event.CopyBootstrapInToRootFS "" (some ⟨"no such file or directory"⟩)] ∧
    (CreateVM okWorld Ctx.background emptyRootfs seqSched).result = some none ∧
    goCalls (CreateVM okWorld Ctx.background emptyRootfs seqSched).trace =
      subsystemCalls (Ctx.withCancel Ctx.background)
        (finalVMConfig okWorld emptyRootfs "/tmp/gvproxy1") (mkCmdline emptyRootfs) :=
  ⟨rfl, rfl, rfl, rfl⟩

/-- C7, amended: an empty rootfs path is not validated.  For every command line
the flag parser can produce whose rootfs is the empty string, `CreateVM` calls
`os.MkdirTemp` once `Rlimit` has succeeded and passes the empty path to
`CopyBootstrapInToRootFS` once the workspace exists; when the four steps
succeed the three subsystems are started, and only when one of them fails does
`CreateVM` return a non-nil error with no subsystem started. -/
theorem C7_empty_rootfs_not_validated {M : Type} (w : World M) (ctx : Ctx) (command : Command)
    (sched : List Choice) (hwf : command.WellFormed) (hroot : command.rootfs = "") :
    (w.Rlimit = none →
      ∃ rest, (CreateVM w ctx command sched).trace =
        Event.Rlimit none :: Event.MkdirTemp "" "gvproxy" (w.MkdirTemp "" "gvproxy") :: rest) ∧
    (∀ d, w.Rlimit = none → w.MkdirTemp "" "gvproxy" = .ok d →
      ∃ rest, (CreateVM w ctx command sched).trace =
        Event.Rlimit none :: Event.MkdirTemp "" "gvproxy" (.ok d) ::
          Event.CopyBootstrapInToRootFS "" (w.CopyBootstrapInToRootFS "") :: rest) ∧
    (∀ d, PreOK w command d →
      ∀ c ∈ subsystemCalls (Ctx.withCancel ctx) (finalVMConfig w command d) (mkCmdline command),
        Event.Go c ∈ (CreateVM w ctx command (sched ++ seqSched)).trace) ∧
    ((¬ ∃ d, PreOK w command d) →
      (∃ e, (CreateVM w ctx command sched).result = some (some e)) ∧
      ∀ c, Event.Go c ∉ (CreateVM w ctx command sched).trace) := by
  have _ := hwf
  have hR : ∀ d, (finalVMConfig w command d).RootFS = "" := fun d => hroot
  refine ⟨?_, ?_, ?_, ?_⟩
  · intro h1
    rcases CreateVM_cases w ctx command sched with ⟨err, h1', _⟩ | ⟨err, _, h2, he⟩ |
      ⟨d, err, _, h2, _, he⟩ | ⟨d, err, _, h2, _, _, he⟩ | ⟨d, ⟨_, h2, _, _⟩, he⟩
    · rw [h1] at h1'; cases h1'
    · rw [he, h2]; exact ⟨_, rfl⟩
    · rw [he, h2]; exact ⟨_, rfl⟩
    · rw [he, h2]; exact ⟨_, rfl⟩
    · rw [he, h2]; exact ⟨_, rfl⟩
  · intro d h1 hd
    rcases CreateVM_cases w ctx command sched with ⟨err, h1', _⟩ | ⟨err, _, h2, he⟩ |
      ⟨d1, err, _, h2, h3, he⟩ | ⟨d1, err, _, h2, h3, _, he⟩ | ⟨d1, ⟨_, h2, h3, _⟩, he⟩
    · rw [h1] at h1'; cases h1'
    · rw [hd] at h2; cases h2
    · rw [hd] at h2; cases h2
      rw [hR] at h3
      rw [he, hR, h3]; exact ⟨_, rfl⟩
    · rw [hd] at h2; cases h2
      rw [hR] at h3
      rw [he, hR, h3]; exact ⟨_, rfl⟩
    · rw [hd] at h2; cases h2
      rw [hR] at h3
      rw [he, h3]
      simp only [handoffTrace, hR]
      exact ⟨_, rfl⟩
  · intro d hok c hc
    exact go_mem_of_finished w ctx command sched d hok c hc
  · intro hno
    rcases CreateVM_cases w ctx command sched with ⟨err, _, he⟩ | ⟨err, _, _, he⟩ |
      ⟨d, err, _, _, _, he⟩ | ⟨d, err, _, _, _, _, he⟩ | ⟨d, hok, _⟩
    · rw [he]; exact ⟨⟨_, rfl⟩, by simp⟩
    · rw [he]; exact ⟨⟨_, rfl⟩, by simp⟩
    · rw [he]; exact ⟨⟨_, rfl⟩, by simp⟩
    · rw [he]; exact ⟨⟨_, rfl⟩, by simp⟩
    · exact absurd ⟨d, hok⟩ hno

/-- The command line `--rootfs "" --memory 256 --cpus 2 sh -c "echo hi"` in a
world where the bootstrap copy fails and in one where every step succeeds, for
C7. -/
theorem C7_empty_rootfs_not_validated_witness :
    (∃ rest, (CreateVM copyFails Ctx.background emptyRootfs seqSched).trace =
      Event.Rlimit none ::
        Event.MkdirTemp "" "gvproxy" (copyFails.MkdirTemp "" "gvproxy") :: rest) ∧
    (∀ c ∈ subsystemCalls (Ctx.withCancel Ctx.background)
        (finalVMConfig okWorld emptyRootfs "/tmp/gvproxy1") (mkCmdline emptyRootfs),
      Event.Go c ∈ (CreateVM okWorld Ctx.background emptyRootfs (seqSched ++ seqSched)).trace) :=
  ⟨(C7_empty_rootfs_not_validated copyFails Ctx.background emptyRootfs seqSched
      ⟨fun m h => by cases h; decide, fun n h => by cases h; decide⟩ rfl).1 rfl,
   (C7_empty_rootfs_not_validated okWorld Ctx.background emptyRootfs seqSched
      ⟨fun m h => by cases h; decide, fun n h => by cases h; decide⟩ rfl).2.2.1
        "/tmp/gvproxy1" ⟨rfl, rfl, rfl, rfl⟩⟩

/-- C8, as stated, fails: with `--memory 0 --cpus 0`, both in the range of their
flag types, `CreateVM` reaches dispatch and hands the subsystems a configuration
with `MemoryInMB = 0` and `Cpus = 0`. -/
theorem C8_counterexample :
    zeroCommand.WellFormed ∧
    goCalls (CreateVM okWorld Ctx.background zeroCommand seqSched).trace =
      subsystemCalls (Ctx.withCancel Ctx.background)
        (finalVMConfig okWorld zeroCommand "/tmp/gvproxy1") (mkCmdline zeroCommand) ∧
    writtenDocs (CreateVM okWorld Ctx.background zeroCommand seqSched).trace =
      [(finalVMConfig okWorld zeroCommand "/tmp/gvproxy1", "/r/vmconfig.json")] ∧
    ¬ (finalVMConfig okWorld zeroCommand "/tmp/gvproxy1").MemoryInMB > 0 ∧
    ¬ 0 < (finalVMConfig okWorld zeroCommand "/tmp/gvproxy1").Cpus := by
  refine ⟨?_, rfl, rfl, by decide, by decide⟩
  constructor
  · intro m h; cases h; decide
  · intro n h; cases h; decide

/-- C8, amended: the configuration handed to the subsystems and written to the
handoff file carries the `--memory` and `--cpus` values unchanged, with no check
of sign or of the host core count, so they lie in the ranges of `int32` and
`int8`; when the flags are not given they are 512 and 1. -/
theorem C8_resources_passed_unchecked {M : Type} (w : World M) (ctx : Ctx) (command : Command)
    (sched : List Choice) :
    (∀ c, Event.Go c ∈ (CreateVM w ctx command sched).trace →
      c.vmc.MemoryInMB = command.memory.getD 512 ∧ c.vmc.Cpus = command.cpus.getD 1) ∧
    (∀ v f r, Event.WriteToJsonFile v f r ∈ (CreateVM w ctx command sched).trace →
      v.MemoryInMB = command.memory.getD 512 ∧ v.Cpus = command.cpus.getD 1) ∧
    (command.WellFormed →
      isInt32 (command.memory.getD 512) ∧ isInt8 (command.cpus.getD 1)) ∧
    (command.memory = none → command.memory.getD 512 = 512) ∧
    (command.cpus = none → command.cpus.getD 1 = 1) := by
  have hv : ∀ c, Event.Go c ∈ (CreateVM w ctx command sched).trace →
      ∃ d, c.vmc = finalVMConfig w command d := by
    intro c h
    obtain ⟨d, _, hc⟩ := go_mem_CreateVM w ctx command sched c h
    exact ⟨d, (vmc_of_mem_subsystemCalls _ _ _ c hc).1⟩
  have hw : ∀ v f r, Event.WriteToJsonFile v f r ∈ (CreateVM w ctx command sched).trace →
      ∃ d, v = finalVMConfig w command d := by
    intro v f r h
    obtain ⟨d, _, _, hv⟩ := write_mem_CreateVM w ctx command sched v f r h
    exact ⟨d, hv⟩
  refine ⟨?_, ?_, ?_, ?_, ?_⟩
  · intro c h
    obtain ⟨d, hd⟩ := hv c h
    rw [hd]; exact ⟨rfl, rfl⟩
  · intro v f r h
    obtain ⟨d, hd⟩ := hw v f r h
    rw [hd]; exact ⟨rfl, rfl⟩
  · intro ⟨hm, hc⟩
    constructor
    · cases h : command.memory with
      | none => simp [isInt32]
      | some m => exact hm m h
    · cases h : command.cpus with
      | none => simp [isInt8]
      | some n => exact hc n h
  · intro h; rw [h]; rfl
  · intro h; rw [h]; rfl

/-- The defaults and the values `--memory 0 --cpus 0`, for C8. -/
theorem C8_resources_passed_unchecked_witness :
    (isInt32 (zeroCommand.memory.getD 512) ∧ isInt8 (zeroCommand.cpus.getD 1)) ∧
    noFlags.memory.getD 512 = 512 ∧ noFlags.cpus.getD 1 = 1 :=
  ⟨(C8_resources_passed_unchecked okWorld Ctx.background zeroCommand seqSched).2.2.1
      ⟨fun m h => by cases h; decide, fun n h => by cases h; decide⟩,
   (C8_resources_passed_unchecked okWorld Ctx.background noFlags seqSched).2.2.2.1 rfl,
   (C8_resources_passed_unchecked okWorld Ctx.background noFlags seqSched).2.2.2.2 rfl⟩

theorem writtenDocs_CreateVM {M : Type} (w : World M) (ctx : Ctx) (command : Command) (sched : List Choice) :
    writtenDocs (CreateVM w ctx command sched).trace =
      handoffDocs w command.rootfs (finalVMConfig w command) := by
  have hR : ∀ d, (finalVMConfig w command d).RootFS = command.rootfs := fun d => rfl
  rcases CreateVM_cases w ctx command sched with ⟨err, h1, he⟩ | ⟨err, h1, h2, he⟩ |
    ⟨d1, err, h1, h2, h3, he⟩ | ⟨d1, err, h1, h2, h3, h4, he⟩ | ⟨d1, ⟨h1, h2, h3, h4⟩, he⟩
  · rw [he]; simp [handoffDocs, h1, writtenDocs]
  · rw [he]; simp [handoffDocs, h1, h2, writtenDocs]
  · rw [hR] at h3
    rw [he]; simp [handoffDocs, h1, h2, h3, writtenDocs]
  · rw [hR] at h3
    rw [he]; simp [handoffDocs, h1, h2, h3, writtenDocs, hR]
  · rw [hR] at h3
    rw [he]
    show writtenDocs (handoffTrace w command d1 ++ _) = _
    unfold writtenDocs
    rw [List.filterMap_append]
    have := writtenDocs_supervise w (Group.WithContext ctx).1
      (subsystemCalls (Ctx.withCancel ctx) (finalVMConfig w command d1) (mkCmdline command)) sched
    unfold writtenDocs at this
    rw [this]
    simp [handoffDocs, h1, h2, h3, handoffTrace, hR]

theorem finalVMConfig_congr {M : Type} (w : World M) (c1 c2 : Command) (d : String)
    (h : Command.sameButGuestCommand c1 c2) :
    finalVMConfig w c1 d = finalVMConfig w c2 d ∧ c1.rootfs = c2.rootfs := by
  unfold Command.sameButGuestCommand at h
  simp only [Command.mk.injEq, and_true, true_and] at h
  obtain ⟨hr, hc, hm, hd, ho⟩ := h
  refine ⟨?_, hr⟩
  simp [finalVMConfig, mkVMConfig, Command.Int32, Command.Int8, Command.StringOf,
    Command.StringSlice, hr, hc, hm, hd, ho]

/-- C9, as stated, fails: the handoff document does not contain the guest
command.  For the scenario of the specification the value and the path that
`CreateVM` passes to `WriteToJsonFile` are the record below, in which the command
`sh -c "echo hi"` does not occur; the command is held in `cmdline` only.  With
the guest command `ls` instead, and the outcome of every collaborator (the
workspace directory among them) held the same, the very same value and path are
written, so the document is not a function of a value that includes the
command. -/
theorem C9_counterexample :
    shCommand.args = ["sh", "-c", "echo hi"] ∧ lsCommand.args = ["ls"] ∧
    Command.sameButGuestCommand shCommand lsCommand ∧
    writtenDocs (CreateVM okWorld Ctx.background shCommand seqSched).trace =
      [({ MemoryInMB := 256, Cpus := 2, RootFS := "/r", DataDisk := [], Mounts := [],
          GVproxyEndpoint := "unix:///tmp/gvproxy1/gvproxy-control.sock",
          NetworkStackBackend := "unixgram:///tmp/gvproxy1/vfkit-network-backend.sock" },
        "/r/vmconfig.json")] ∧
    writtenDocs (CreateVM okWorld Ctx.background lsCommand seqSched).trace =
      writtenDocs (CreateVM okWorld Ctx.background shCommand seqSched).trace ∧
    (CreateVM okWorld Ctx.background shCommand seqSched).cmdline =
      some { Workspace := "/", TargetBin := "/bootstrap-arm64",
             TargetBinArgs := ["sh", "-c", "echo hi"], Env := [] } :=
  ⟨rfl, rfl, by decide, rfl, rfl, rfl⟩

/-- C9, amended: the handoff document is written from the `VMConfig` value
alone.  What `CreateVM` passes to `WriteToJsonFile` is the path joined from the
rootfs and `define.VMConfig` and the configuration made of the memory, the
cpus, the rootfs, the data disks, the converted mounts and the two endpoints of
the workspace, and it is passed as soon as the bootstrap copy has succeeded;
for memory 256, cpus 2, no data disk and no mount it has `MemoryInMB = 256`,
`Cpus = 2`, an empty data-disk list and the conversion of the empty mount list.
The boot command is no part of it.  Two runs whose command lines differ only in
the positional arguments and in `--envs`, each with its own collaborators and
its own workspace, write configurations that agree in memory, cpus, rootfs,
data disks and mounts (the mount conversion being the same), and that are equal
when `os.MkdirTemp` returned the same directory to both; with the outcome of
every collaborator held the same, what is written is the same. -/
theorem C9_handoff_is_vmconfig_only {M : Type} (w : World M) (ctx : Ctx) (command : Command)
    (sched : List Choice) :
    (∀ v f r, Event.WriteToJsonFile v f r ∈ (CreateVM w ctx command sched).trace →
      ∃ d, w.MkdirTemp "" "gvproxy" = .ok d ∧
        f = w.Join command.rootfs w.DefineVMConfig ∧
        v = { MemoryInMB := command.memory.getD 512
              Cpus := command.cpus.getD 1
              RootFS := command.rootfs
              DataDisk := command.dataDisk
              Mounts := w.CmdLineMountToMounts command.mount
              GVproxyEndpoint := "unix://" ++ d ++ "/gvproxy-control.sock"
              NetworkStackBackend := "unixgram://" ++ d ++ "/vfkit-network-backend.sock" }) ∧
    (∀ d, w.Rlimit = none → w.MkdirTemp "" "gvproxy" = .ok d →
      w.CopyBootstrapInToRootFS command.rootfs = none →
      ∃ r, Event.WriteToJsonFile (finalVMConfig w command d)
        (w.Join command.rootfs w.DefineVMConfig) r ∈ (CreateVM w ctx command sched).trace) ∧
    (command.memory = some 256 → command.cpus = some 2 → command.dataDisk = [] →
      command.mount = [] →
      ∀ v f r, Event.WriteToJsonFile v f r ∈ (CreateVM w ctx command sched).trace →
        v.MemoryInMB = 256 ∧ v.Cpus = 2 ∧ v.DataDisk = [] ∧
        v.Mounts = w.CmdLineMountToMounts []) ∧
    (∀ (w2 : World M) ctx2 command2 sched2 v f r v2 f2 r2,
      Command.sameButGuestCommand command command2 →
      w2.CmdLineMountToMounts command.mount = w.CmdLineMountToMounts command.mount →
      Event.WriteToJsonFile v f r ∈ (CreateVM w ctx command sched).trace →
      Event.WriteToJsonFile v2 f2 r2 ∈ (CreateVM w2 ctx2 command2 sched2).trace →
      v2.MemoryInMB = v.MemoryInMB ∧ v2.Cpus = v.Cpus ∧ v2.RootFS = v.RootFS ∧
      v2.DataDisk = v.DataDisk ∧ v2.Mounts = v.Mounts ∧
      (w2.MkdirTemp "" "gvproxy" = w.MkdirTemp "" "gvproxy" → v2 = v)) ∧
    (∀ command2 sched2, Command.sameButGuestCommand command command2 →
      writtenDocs (CreateVM w ctx command sched).trace =
        writtenDocs (CreateVM w ctx command2 sched2).trace) := by
  have hw := write_mem_CreateVM w ctx command sched
  refine ⟨?_, ?_, ?_, ?_, ?_⟩
  · intro v f r h
    obtain ⟨d, h1, h2, h3⟩ := hw v f r h
    exact ⟨d, h1, h2, by rw [h3]; rfl⟩
  · intro d h1 h2 h3
    exact ⟨_, write_mem_of_copied w ctx command sched d h1 h2 h3⟩
  · intro hm hc hd ho v f r h
    obtain ⟨d, _, _, h3⟩ := hw v f r h
    rw [h3]
    simp [finalVMConfig, mkVMConfig, Command.Int32, Command.Int8, Command.StringSlice, hm, hc,
      hd, ho]
  · intro w2 ctx2 command2 sched2 v f r v2 f2 r2 hs hmnt h h2
    obtain ⟨d, hd, _, hv⟩ := hw v f r h
    obtain ⟨d2, hd2, _, hv2⟩ := write_mem_CreateVM w2 ctx2 command2 sched2 v2 f2 r2 h2
    have hs' := hs
    unfold Command.sameButGuestCommand at hs'
    simp only [Command.mk.injEq, and_true, true_and] at hs'
    obtain ⟨hr, hc, hm, hdd, ho⟩ := hs'
    subst hv
    subst hv2
    refine ⟨?_, ?_, ?_, ?_, ?_, ?_⟩
    · simp [finalVMConfig, mkVMConfig, Command.Int32, hm]
    · simp [finalVMConfig, mkVMConfig, Command.Int8, hc]
    · simp [finalVMConfig, mkVMConfig, Command.StringOf, hr]
    · simp [finalVMConfig, mkVMConfig, Command.StringSlice, hdd]
    · simp [finalVMConfig, mkVMConfig, Command.StringSlice, ← ho, hmnt]
    · intro hsame
      rw [hd, hd2] at hsame
      cases hsame
      simp [finalVMConfig, mkVMConfig, Command.Int32, Command.Int8, Command.StringOf,
        Command.StringSlice, hr, hc, hm, hdd, ← ho, hmnt]
  · intro command2 sched2 hs
    rw [writtenDocs_CreateVM, writtenDocs_CreateVM]
    have h1 : finalVMConfig w command = finalVMConfig w command2 :=
      funext fun d => (finalVMConfig_congr w command command2 d hs).1
    rw [h1, (finalVMConfig_congr w command command2 "" hs).2]

/-- The scenario of the specification and a run with the guest command `ls` in
another workspace, for C9: the two written configurations agree in everything
but the endpoints. -/
theorem C9_handoff_is_vmconfig_only_witness :
    (finalVMConfig okWorld2 lsCommand "/tmp/gvproxy2").MemoryInMB =
      (finalVMConfig okWorld shCommand "/tmp/gvproxy1").MemoryInMB ∧
    (finalVMConfig okWorld2 lsCommand "/tmp/gvproxy2").Cpus =
      (finalVMConfig okWorld shCommand "/tmp/gvproxy1").Cpus ∧
    writtenDocs (CreateVM okWorld Ctx.background shCommand seqSched).trace =
      writtenDocs (CreateVM okWorld Ctx.background lsCommand revSched).trace :=
  ⟨((C9_handoff_is_vmconfig_only okWorld Ctx.background shCommand seqSched).2.2.2.1
      okWorld2 Ctx.background lsCommand revSched
      (finalVMConfig okWorld shCommand "/tmp/gvproxy1") "/r/vmconfig.json" none
      (finalVMConfig okWorld2 lsCommand "/tmp/gvproxy2") "/r/vmconfig.json" none
      (by decide) rfl
      (List.Mem.tail _ (List.Mem.tail _ (List.Mem.tail _ (List.Mem.head _))))
      (List.Mem.tail _ (List.Mem.tail _ (List.Mem.tail _ (List.Mem.head _))))).1,
   ((C9_handoff_is_vmconfig_only okWorld Ctx.background shCommand seqSched).2.2.2.1
      okWorld2 Ctx.background lsCommand revSched
      (finalVMConfig okWorld shCommand "/tmp/gvproxy1") "/r/vmconfig.json" none
      (finalVMConfig okWorld2 lsCommand "/tmp/gvproxy2") "/r/vmconfig.json" none
      (by decide) rfl
      (List.Mem.tail _ (List.Mem.tail _ (List.Mem.tail _ (List.Mem.head _))))
      (List.Mem.tail _ (List.Mem.tail _ (List.Mem.tail _ (List.Mem.head _))))).2.1,
   (C9_handoff_is_vmconfig_only okWorld Ctx.background shCommand seqSched).2.2.2.2
     lsCommand revSched (by decide)⟩

theorem not_ret_err_handoffTrace {M : Type} (w : World M) (command : Command) (d : String)
    (c : Call M) (r : Option GoError) : Event.Return c r ∉ handoffTrace w command d := by
  simp [handoffTrace]

theorem subsystemCalls_task {M : Type} (ctx : Ctx) (vmc : VMConfig M) (cmdline : Cmdline)
    (t : Task) : ∃ c, c ∈ subsystemCalls ctx vmc cmdline ∧ c.task = t := by
  cases t with
  | network => exact ⟨Call.StartNetworking ctx vmc, by simp [subsystemCalls], rfl⟩
  | ignServer => exact ⟨Call.IgnServer ctx vmc, by simp [subsystemCalls], rfl⟩
  | startVM => exact ⟨Call.StartVM ctx vmc cmdline, by simp [subsystemCalls], rfl⟩

/-- C3: when the four steps before dispatch succeed, a schedule that lets every
task return makes `CreateVM` return; and once it has returned, the `g.Go` events
of the run are exactly the three calls, each once, the result is nil exactly
when all three calls return nil, and a non-nil result is the one error of the
first task whose return of a non-nil error stands in the run.  The same holds of
the supervisor for the three calls started in any other order. -/
theorem C3_result_is_first_error {M : Type} (w : World M) (ctx : Ctx) (command : Command)
    (sched : List Choice) (d : String) (hok : PreOK w command d) :
    (CreateVM w ctx command (sched ++ seqSched)).result ≠ none ∧
    (∀ r, (CreateVM w ctx command sched).result = some r →
      goCalls (CreateVM w ctx command sched).trace =
        [Call.StartNetworking (Ctx.withCancel ctx) (finalVMConfig w command d),
         Call.IgnServer (Ctx.withCancel ctx) (finalVMConfig w command d),
         Call.StartVM (Ctx.withCancel ctx) (finalVMConfig w command d)
           (mkCmdline command)] ∧
      (r = none ↔
        w.StartNetworking (Ctx.withCancel ctx) (finalVMConfig w command d) = none ∧
        w.IgnServer (Ctx.withCancel ctx) (finalVMConfig w command d) = none ∧
        w.StartVM (Ctx.withCancel ctx) (finalVMConfig w command d) (mkCmdline command) =
          none) ∧
      (∀ e, r = some e → ∃ a c b,
        (CreateVM w ctx command sched).trace = a ++ Event.Return c (some e) :: b ∧
        (∀ c1 e1, Event.Return c1 (some e1) ∉ a) ∧
        c ∈ subsystemCalls (Ctx.withCancel ctx) (finalVMConfig w command d)
          (mkCmdline command) ∧
        w.exec c = some e)) ∧
    (∀ calls r, calls.Perm (subsystemCalls (Ctx.withCancel ctx) (finalVMConfig w command d)
        (mkCmdline command)) →
      (supervise w (Group.WithContext ctx).1 calls sched).result = some r →
      (r = none ↔
        w.StartNetworking (Ctx.withCancel ctx) (finalVMConfig w command d) = none ∧
        w.IgnServer (Ctx.withCancel ctx) (finalVMConfig w command d) = none ∧
        w.StartVM (Ctx.withCancel ctx) (finalVMConfig w command d) (mkCmdline command) =
          none) ∧
      (∀ e, r = some e → ∃ a c b,
        (supervise w (Group.WithContext ctx).1 calls sched).trace =
          a ++ Event.Return c (some e) :: b ∧
        (∀ c1 e1, Event.Return c1 (some e1) ∉ a) ∧ w.exec c = some e)) := by
  have hall : ∀ calls : List (Call M),
      calls.Perm (subsystemCalls (Ctx.withCancel ctx) (finalVMConfig w command d)
        (mkCmdline command)) →
      ((∀ c ∈ calls, w.exec c = none) ↔
        w.StartNetworking (Ctx.withCancel ctx) (finalVMConfig w command d) = none ∧
        w.IgnServer (Ctx.withCancel ctx) (finalVMConfig w command d) = none ∧
        w.StartVM (Ctx.withCancel ctx) (finalVMConfig w command d) (mkCmdline command) =
          none) := by
    intro calls hp
    have : (∀ c ∈ calls, w.exec c = none) ↔
        ∀ c ∈ subsystemCalls (Ctx.withCancel ctx) (finalVMConfig w command d)
            (mkCmdline command),
          w.exec c = none :=
      ⟨fun h c hc => h c (hp.mem_iff.mpr hc), fun h c hc => h c (hp.mem_iff.mp hc)⟩
    rw [this]
    simp [subsystemCalls, World.exec]
  refine ⟨?_, ?_, ?_⟩
  · rw [CreateVM_ok w ctx command _ d hok]
    exact supervise_finishes w ctx _ sched (subsystemCalls_nodup _ _ _)
      (by simp [subsystemCalls])
  · intro r hr
    rw [CreateVM_ok w ctx command sched d hok] at hr ⊢
    obtain ⟨hgo, _, hnone, hsome⟩ := supervise_result w ctx _ sched r hr
    refine ⟨?_, ?_, ?_⟩
    · show goCalls (handoffTrace w command d ++ _) = _
      rw [goCalls_append, hgo]
      rfl
    · rw [hnone]
      exact hall _ (List.Perm.refl _)
    · intro e he
      obtain ⟨a, c, b, hab, ha, hc, hex⟩ := hsome e he
      refine ⟨handoffTrace w command d ++ a, c, b, ?_, ?_, hc, hex⟩
      · show handoffTrace w command d ++ _ = _
        rw [hab, List.append_assoc]
      · intro c1 e1 hmem
        rcases List.mem_append.mp hmem with h | h
        · exact not_ret_err_handoffTrace w command d c1 _ h
        · exact ha c1 e1 h
  · intro calls r hp hr
    obtain ⟨_, _, hnone, hsome⟩ := supervise_result w ctx calls sched r hr
    refine ⟨?_, ?_⟩
    · rw [hnone]
      exact hall calls hp
    · intro e he
      obtain ⟨a, c, b, hab, ha, _, hex⟩ := hsome e he
      exact ⟨a, c, b, hab, ha, hex⟩

/-- A run in which the VM runtime, started last, fails first and the network
stack fails after it, for C3. -/
theorem C3_result_is_first_error_witness :
    (CreateVM twoFail Ctx.background shCommand (revSched ++ seqSched)).result ≠ none ∧
    (CreateVM twoFail Ctx.background shCommand revSched).result = some (some ⟨"vm runtime failed"⟩) ∧
    goCalls (CreateVM twoFail Ctx.background shCommand revSched).trace =
      subsystemCalls (Ctx.withCancel Ctx.background)
        (finalVMConfig twoFail shCommand "/tmp/gvproxy1") (mkCmdline shCommand) :=
  ⟨(C3_result_is_first_error twoFail Ctx.background shCommand revSched "/tmp/gvproxy1" ⟨rfl, rfl, rfl, rfl⟩).1,
   rfl,
   ((C3_result_is_first_error twoFail Ctx.background shCommand revSched "/tmp/gvproxy1"
      ⟨rfl, rfl, rfl, rfl⟩).2.1 (some ⟨"vm runtime failed"⟩) rfl).1⟩

/-- C4: when a task returns a non-nil error and no task has done so before, the
context that the task holds is the one `errgroup.WithContext` derived, every
task dispatched in the run holds that same context, and this context, not
cancelled until then, is cancelled at that return and stays cancelled; no other
context is.  Whenever `CreateVM` returns afterwards it returns exactly that
error, after each of the three tasks has returned, and a schedule that lets
every task return makes it return.  This holds whichever of the three calls is
the one that fails. -/
theorem C4_first_error_cancels {M : Type} (w : World M) (ctx : Ctx) (command : Command)
    (s1 s2 : List Choice) (c : Call M) (e : GoError)
    (h1 : ∀ c1 e1, Event.Return c1 (some e1) ∉ (CreateVM w ctx command s1).trace)
    (h2 : Event.Return c (some e) ∈
      (CreateVM w ctx command (s1 ++ [Choice.ret c.task])).trace) :
    c.ctx = Ctx.withCancel ctx ∧
    (∀ c1, Event.Go c1 ∈ (CreateVM w ctx command (s1 ++ Choice.ret c.task :: s2)).trace →
      c1.ctx = c.ctx) ∧
    (CreateVM w ctx command s1).cancelled c.ctx = false ∧
    (CreateVM w ctx command (s1 ++ [Choice.ret c.task])).cancelled c.ctx = true ∧
    (CreateVM w ctx command (s1 ++ Choice.ret c.task :: s2)).cancelled c.ctx = true ∧
    (∀ x, (CreateVM w ctx command (s1 ++ Choice.ret c.task :: s2)).cancelled x = true →
      x = c.ctx) ∧
    (CreateVM w ctx command (s1 ++ [Choice.ret c.task])).trace =
      (CreateVM w ctx command s1).trace ++ [Event.Return c (some e), Event.Cancel (some e)] ∧
    (CreateVM w ctx command ((s1 ++ Choice.ret c.task :: s2) ++ seqSched)).result ≠ none ∧
    (∀ r, (CreateVM w ctx command (s1 ++ Choice.ret c.task :: s2)).result = some r →
      r = some e ∧
      ∃ tr, (CreateVM w ctx command (s1 ++ Choice.ret c.task :: s2)).trace =
          tr ++ [Event.Cancel (some e), Event.WaitReturn (some e)] ∧
        ∀ t : Task, ∃ c1 r1, c1.task = t ∧ Event.Return c1 r1 ∈ tr) := by
  rcases CreateVM_cases w ctx command (s1 ++ [Choice.ret c.task]) with ⟨err, _, he⟩ |
    ⟨err, _, _, he⟩ | ⟨d1, err, _, _, _, he⟩ | ⟨d1, err, _, _, _, _, he⟩ | ⟨d, hok, _⟩
  · rw [he] at h2; simp at h2
  · rw [he] at h2; simp at h2
  · rw [he] at h2; simp at h2
  · rw [he] at h2; simp at h2
  · have hgoctx : ∀ (s : List Choice) (c1 : Call M),
        Event.Go c1 ∈ (CreateVM w ctx command s).trace → c1.ctx = Ctx.withCancel ctx := by
      intro s c1 hc1
      obtain ⟨d1, _, hm⟩ := go_mem_CreateVM w ctx command s c1 hc1
      exact (vmc_of_mem_subsystemCalls _ _ _ c1 hm).2
    rw [CreateVM_ok w ctx command (s1 ++ [Choice.ret c.task]) d hok] at h2 ⊢
    rw [CreateVM_ok w ctx command s1 d hok] at h1 ⊢
    rw [CreateVM_ok w ctx command ((s1 ++ Choice.ret c.task :: s2) ++ seqSched) d hok]
    have hgoctx3 := hgoctx (s1 ++ Choice.ret c.task :: s2)
    rw [CreateVM_ok w ctx command (s1 ++ Choice.ret c.task :: s2) d hok] at hgoctx3 ⊢
    have hcallsctx : ∀ x ∈ subsystemCalls (Ctx.withCancel ctx) (finalVMConfig w command d)
        (mkCmdline command), x.ctx = Ctx.withCancel ctx :=
      fun x hx => (vmc_of_mem_subsystemCalls _ _ _ x hx).2
    generalize hcalls : subsystemCalls (Ctx.withCancel ctx) (finalVMConfig w command d)
      (mkCmdline command) = calls at *
    have hnd : (calls.map Call.task).Nodup := by rw [← hcalls]; exact subsystemCalls_nodup _ _ _
    have hlen : calls.length ≤ 3 := by rw [← hcalls]; simp [subsystemCalls]
    have htask : ∀ t : Task, ∃ c1, c1 ∈ calls ∧ c1.task = t := by
      intro t; rw [← hcalls]; exact subsystemCalls_task _ _ _ t
    have hs2 : supervise w (Group.WithContext ctx).1 calls (s1 ++ [Choice.ret c.task]) =
        step w (supervise w (Group.WithContext ctx).1 calls s1) (Choice.ret c.task) := by
      rw [supervise_append]; rfl
    have hs3 : supervise w (Group.WithContext ctx).1 calls (s1 ++ Choice.ret c.task :: s2) =
        s2.foldl (step w)
          (step w (supervise w (Group.WithContext ctx).1 calls s1) (Choice.ret c.task)) := by
      rw [supervise_append]; rfl
    have hi := inv_supervise w ctx calls s1
    have hi3 := inv_supervise w ctx calls (s1 ++ Choice.ret c.task :: s2)
    have hres3 := supervise_result w ctx calls (s1 ++ Choice.ret c.task :: s2)
    have hfin := supervise_finishes w ctx calls (s1 ++ Choice.ret c.task :: s2) hnd hlen
    rw [hs3] at hi3 hres3 hgoctx3 ⊢
    rw [hs2] at h2 ⊢
    generalize supervise w (Group.WithContext ctx).1 calls s1 = σ at *
    simp only at h1 h2 hgoctx3 ⊢
    have hno : ∀ c1 e1, Event.Return c1 (some e1) ∉ σ.trace := by
      intro c1 e1 hm
      exact h1 c1 e1 (List.mem_append_right _ hm)
    have hfe : firstErr σ.trace = none := (firstErr_eq_none_iff _).mpr hno
    have honce : σ.g.errOnce = false := by rw [hi.once_eq, hfe]; rfl
    have h2' : Event.Return c (some e) ∈ (step w σ (Choice.ret c.task)).trace := by
      rcases List.mem_append.mp h2 with h | h
      · exact absurd h (not_ret_err_handoffTrace w command d c _)
      · exact h
    cases hf : σ.g.running.find? (fun x => x.task == c.task) with
    | none =>
      rw [step_ret_none w σ _ hf] at h2'
      exact absurd h2' (hno c e)
    | some k =>
      have hne : σ.g.running ≠ [] := by
        intro h0; rw [h0] at hf; simp at hf
      have hresσ : σ.result = none := by
        cases hr : σ.result with
        | none => rfl
        | some r => exact absurd (hi.res r hr).2.2.1 hne
      have hstep := step_ret_some w σ c.task k hf
      rw [hstep] at h2'
      simp only [List.mem_append] at h2'
      have h2'' : Event.Return c (some e) ∈ (σ.g.finish k (w.exec k)).2 := by
        rcases h2' with h | h
        · exact absurd h (hno c e)
        · exact h
      have hke : k = c ∧ w.exec k = some e := by
        cases hx : w.exec k with
        | none => rw [hx] at h2''; simp [Group.finish] at h2''
        | some e' =>
          rw [hx] at h2''
          simp [Group.finish, honce] at h2''
          exact ⟨h2''.1.symm, by rw [h2''.2]⟩
      obtain ⟨hkc, hex⟩ := hke
      subst hkc
      have hkcalls : k ∈ calls := by
        have hk1 : k ∈ σ.g.running := List.mem_of_find?_eq_some hf
        have hk2 : k ∈ goCalls σ.trace :=
          hi.ret_run.mem_iff.mp (List.mem_append_right _ hk1)
        rw [← hi.go_todo]
        exact List.mem_append_left _ hk2
      have hkctx : k.ctx = Ctx.withCancel ctx := hcallsctx k hkcalls
      have hfin' : σ.g.finish k (some e) =
          ({ err := some e, errOnce := true, cancelled := true,
             running := σ.g.running.eraseP (fun x => x.task == k.task) },
           [Event.Return k (some e), Event.Cancel (some e)]) := by
        simp [Group.finish, honce]
      rw [hex, hfin'] at hstep
      obtain ⟨evs, hevs⟩ := foldl_trace w s2 (step w σ (Choice.ret k.task))
      have hfe3 : firstErr (s2.foldl (step w) (step w σ (Choice.ret k.task))).trace =
          some e := by
        rw [hevs, firstErr_append, hstep]
        simp only
        rw [firstErr_append, hfe]
        rfl
      have hcan3 : (s2.foldl (step w) (step w σ (Choice.ret k.task))).g.cancelled = true := by
        rw [hi3.cancelled_eq, hi3.once_eq, hfe3]; rfl
      refine ⟨hkctx, ?_, ?_, ?_, ?_, ?_, ?_, hfin, ?_⟩
      · intro c1 hc1
        rw [hkctx]; exact hgoctx3 c1 hc1
      · rw [hi.cancelled_eq, honce, hresσ]; simp
      · rw [hstep, hkctx]; simp
      · rw [hcan3, hkctx]; simp
      · intro x hx
        rw [hkctx]
        simp only [Bool.and_eq_true, decide_eq_true_eq] at hx
        exact hx.1
      · rw [hstep, List.append_assoc]
      · intro r hr
        obtain ⟨hre, _, _, tr, htr⟩ := hi3.res r hr
        have hre' : r = some e := by rw [hre, hi3.err_eq, hfe3]
        subst hre'
        refine ⟨rfl, handoffTrace w command d ++ tr, ?_, ?_⟩
        · rw [htr, List.append_assoc]
        · intro t
          obtain ⟨c1, hc1, ht⟩ := htask t
          have hperm := (hres3 (some e) hr).2.1
          have hc1' : c1 ∈ retCalls tr := by
            have := hperm.mem_iff.mpr hc1
            rw [htr, retCalls_append] at this
            rcases List.mem_append.mp this with h | h
            · exact h
            · simp [retCalls, Event.retCall?] at h
          obtain ⟨r1, hr1⟩ := (mem_retCalls tr c1).mp hc1'
          exact ⟨c1, r1, ht, List.mem_append_right _ hr1⟩

/-- Each of the three tasks failing first in turn, for C4. -/
theorem C4_first_error_cancels_witness :
    ((CreateVM netFails Ctx.background shCommand startSched).cancelled
        (Ctx.withCancel Ctx.background) = false ∧
      (CreateVM netFails Ctx.background shCommand (startSched ++ [Choice.ret Task.network])).cancelled
        (Ctx.withCancel Ctx.background) = true) ∧
    ((CreateVM ignFails Ctx.background shCommand startSched).cancelled
        (Ctx.withCancel Ctx.background) = false ∧
      (CreateVM ignFails Ctx.background shCommand (startSched ++ [Choice.ret Task.ignServer])).cancelled
        (Ctx.withCancel Ctx.background) = true) ∧
    ((CreateVM vmFails Ctx.background shCommand startSched).cancelled
        (Ctx.withCancel Ctx.background) = false ∧
      (CreateVM vmFails Ctx.background shCommand (startSched ++ [Choice.ret Task.startVM])).cancelled
        (Ctx.withCancel Ctx.background) = true) :=
  ⟨⟨(C4_first_error_cancels netFails Ctx.background shCommand startSched []
        (Call.StartNetworking (Ctx.withCancel Ctx.background)
          (finalVMConfig netFails shCommand "/tmp/gvproxy1"))
        ⟨"network stack failed"⟩ ((firstErr_eq_none_iff _).mp rfl)
        (List.Mem.tail _ (List.Mem.tail _ (List.Mem.tail _ (List.Mem.tail _ (List.Mem.tail _
          (List.Mem.tail _ (List.Mem.tail _ (List.Mem.head _))))))))).2.2.1,
     (C4_first_error_cancels netFails Ctx.background shCommand startSched []
        (Call.StartNetworking (Ctx.withCancel Ctx.background)
          (finalVMConfig netFails shCommand "/tmp/gvproxy1"))
        ⟨"network stack failed"⟩ ((firstErr_eq_none_iff _).mp rfl)
        (List.Mem.tail _ (List.Mem.tail _ (List.Mem.tail _ (List.Mem.tail _ (List.Mem.tail _
          (List.Mem.tail _ (List.Mem.tail _ (List.Mem.head _))))))))).2.2.2.1⟩,
   ⟨(C4_first_error_cancels ignFails Ctx.background shCommand startSched []
        (Call.IgnServer (Ctx.withCancel Ctx.background)
          (finalVMConfig ignFails shCommand "/tmp/gvproxy1"))
        ⟨"config server failed"⟩ ((firstErr_eq_none_iff _).mp rfl)
        (List.Mem.tail _ (List.Mem.tail _ (List.Mem.tail _ (List.Mem.tail _ (List.Mem.tail _
          (List.Mem.tail _ (List.Mem.tail _ (List.Mem.head _))))))))).2.2.1,
     (C4_first_error_cancels ignFails Ctx.background shCommand startSched []
        (Call.IgnServer (Ctx.withCancel Ctx.background)
          (finalVMConfig ignFails shCommand "/tmp/gvproxy1"))
        ⟨"config server failed"⟩ ((firstErr_eq_none_iff _).mp rfl)
        (List.Mem.tail _ (List.Mem.tail _ (List.Mem.tail _ (List.Mem.tail _ (List.Mem.tail _
          (List.Mem.tail _ (List.Mem.tail _ (List.Mem.head _))))))))).2.2.2.1⟩,
   ⟨(C4_first_error_cancels vmFails Ctx.background shCommand startSched []
        (Call.StartVM (Ctx.withCancel Ctx.background)
          (finalVMConfig vmFails shCommand "/tmp/gvproxy1") (mkCmdline shCommand))
        ⟨"vm runtime failed"⟩ ((firstErr_eq_none_iff _).mp rfl)
        (List.Mem.tail _ (List.Mem.tail _ (List.Mem.tail _ (List.Mem.tail _ (List.Mem.tail _
          (List.Mem.tail _ (List.Mem.tail _ (List.Mem.head _))))))))).2.2.1,
     (C4_first_error_cancels vmFails Ctx.background shCommand startSched []
        (Call.StartVM (Ctx.withCancel Ctx.background)
          (finalVMConfig vmFails shCommand "/tmp/gvproxy1") (mkCmdline shCommand))
        ⟨"vm runtime failed"⟩ ((firstErr_eq_none_iff _).mp rfl)
        (List.Mem.tail _ (List.Mem.tail _ (List.Mem.tail _ (List.Mem.tail _ (List.Mem.tail _
          (List.Mem.tail _ (List.Mem.tail _ (List.Mem.head _))))))))).2.2.2.1⟩⟩

end Vsh
